import Mathlib

/-!
# PrepareAssetsForCookingCommandlet

A shallow embedding of
`Unreal/CarlaUE4/Plugins/Carla/Source/Carla/Commandlet/PrepareAssetsForCookingCommandlet.cpp`
and the properties of its classification, persistence and dispatch logic.

The commandlet's member state (the working `World`), the file system it reads
and writes and the sequence of engine calls it issues are carried in an explicit
`State`.  Everything the engine answers (asset enumeration, the outcome of a
save, path conversions, JSON decoding) is a field of `Env`; every theorem below
quantifies over all such answers.
-/

namespace Carla

/-! ## Engine string primitives -/

/-- The search-case argument of the engine's `FString` search functions. -/
inductive ESearchCase where
  | CaseSensitive
  | IgnoreCase
  deriving DecidableEq, Repr

namespace FString

/-- Characters as compared under a search case. -/
def fold (sc : ESearchCase) (cs : List Char) : List Char :=
  match sc with
  | ESearchCase.CaseSensitive => cs
  | ESearchCase.IgnoreCase => cs.map Char.toLower

/-- Does `sub` occur as a contiguous run of `s`. -/
def isInfix (sub s : List Char) : Bool :=
  s.tails.any (fun t => sub.isPrefixOf t)

/-- `FString::Contains(SubStr)` under the search case `sc`. -/
def Contains (sc : ESearchCase) (s sub : String) : Bool :=
  isInfix (fold sc sub.data) (fold sc s.data)

/-- `FString::StartsWith(Prefix)` under the search case `sc`. -/
def StartsWith (sc : ESearchCase) (s pre : String) : Bool :=
  decide (0 < pre.data.length) && (fold sc pre.data).isPrefixOf (fold sc s.data)

/-- `FString::EndsWith(Suffix)` under the search case `sc`. -/
def EndsWith (sc : ESearchCase) (s suf : String) : Bool :=
  decide (0 < suf.data.length) &&
    (fold sc suf.data).reverse.isPrefixOf (fold sc s.data).reverse

/-- `FString::RemoveFromEnd(Suffix)`: drops the suffix when the string ends with it. -/
def RemoveFromEnd (sc : ESearchCase) (s suf : String) : String :=
  if EndsWith sc s suf then ⟨s.data.take (s.data.length - suf.data.length)⟩ else s

/-- `FString::IsEmpty`. -/
def IsEmpty (s : String) : Bool := s.data.isEmpty

/-- `FString::Len`. -/
def Len (s : String) : Nat := s.data.length

/-- Position of the last occurrence of `sub` in `s`, scanning start positions from
`i` downwards. -/
def findLast (sub s : List Char) : Nat → Option Nat
  | 0 => if sub.isPrefixOf s then some 0 else none
  | i + 1 => if sub.isPrefixOf (s.drop (i + 1)) then some (i + 1) else findLast sub s i

/-- `S.Split(Delim, &S, nullptr, SearchCase, ESearchDir::FromEnd)`: `S` becomes what
stands left of the last occurrence of `Delim`; without an occurrence `S` is kept. -/
def SplitLeftFromEnd (sc : ESearchCase) (s delim : String) : String :=
  match findLast (fold sc delim.data) (fold sc s.data) s.data.length with
  | some i => ⟨s.data.take i⟩
  | none => s

end FString

/-! ## Data model -/

/-- The tag `SSTags::OTHER`. -/
def SSTags.OTHER : String := "Other"
/-- The tag `SSTags::ROAD`. -/
def SSTags.ROAD : String := "Roads"
/-- The tag `SSTags::ROADLINES`. -/
def SSTags.ROADLINES : String := "RoadLines"
/-- The tag `SSTags::VEGETATION`. -/
def SSTags.VEGETATION : String := "Vegetation"
/-- The tag `SSTags::TERRAIN`. -/
def SSTags.TERRAIN : String := "Terrain"
/-- The tag `SSTags::MARKING`. -/
def SSTags.MARKING : String := "Marking"

/-- The parameters `ParseParams` extracts from the command line. -/
structure FPackageParams where
  Name : String
  bOnlyPrepareMaps : Bool
  bOnlyMoveMeshes : Bool
  deriving DecidableEq, Repr

/-- One entry of the manifest's `maps` array. -/
structure FMapData where
  Name : String
  Path : String
  bUseCarlaMapMaterials : Bool
  deriving DecidableEq, Repr

/-- The content of the manifest. -/
structure FAssetsPaths where
  MapsPaths : List FMapData
  PropsPaths : List String
  deriving DecidableEq, Repr

/-- An enumerated static-mesh asset: its asset name and the name of the package
that holds the loaded mesh (`GetOutermost()->GetName()`). -/
structure FAssetData where
  AssetName : String
  PackageName : String
  deriving DecidableEq, Repr

/-- The material members of the commandlet that `SetMaterial` is called with. -/
inductive MaterialMember where
  | MarkingNodeMaterial
  | RoadNodeMaterial
  | MarkingNodeMaterialAux
  | TerrainNodeMaterial
  deriving DecidableEq, Repr

/-- The classes of the instances that live in the working scene. -/
inductive ActorClass where
  | StaticMeshActor
  | OpenDriveActor
  | RoutePlanner
  | VehicleSpawnPoint
  | Level
  deriving DecidableEq, Repr

/-- A live instance of the scene.  `Materials` lists the `SetMaterial(slot, member)`
calls made on its mesh component, in call order. -/
structure AActor where
  Id : Nat
  Class : ActorClass
  StaticMesh : Option FAssetData
  Materials : List (Nat × MaterialMember)
  deriving DecidableEq, Repr

/-- The working scene together with the state of its backing package. -/
structure UWorld where
  Name : String
  FolderName : String
  RegistryPath : String
  Dirty : Bool
  Actors : List AActor
  deriving DecidableEq, Repr

/-- The engine calls with an effect outside the scene's instance list. -/
inductive Event where
  | LoadWorld (Path : String)
  | SpawnActor (Id : Nat)
  | DestroyActor (Id : Nat)
  | SavePackage (FileName : String) (Ok : Bool)
  | MoveAssets (Assets : List FAssetData) (DestPath : String)
  | SaveStringToFile (Path : String) (Text : String)
  deriving DecidableEq, Repr

/-- A decoded JSON value. -/
inductive FJsonValue where
  | Null
  | Boolean (b : Bool)
  | Text (s : String)
  | Array (items : List FJsonValue)
  | Object (fields : List (String × FJsonValue))

/-- What the engine and the platform answer.  Answers that depend on the engine's
state take the history of calls made so far.  `SearchCase` is the case rule the
engine's `FString` searches apply when the caller passes none, as `Contains`,
`StartsWith` and `RemoveFromEnd` are called in this file; the statements hold for
both rules. -/
structure Env where
  SearchCase : ESearchCase
  ProjectContentDir : String
  MapPackageExtension : String
  LongPackageNameToFilename : String → String → String
  ConvertToAbsolutePath : String → String
  Deserialize : String → Option FJsonValue
  GetAssetDataList : List Event → List String → List FAssetData
  GetWorldDataList : List Event → String → List UWorld
  FindFilesRecursive : List Event → String → String → List String
  CreateDirectoryTree : List Event → String → Bool
  SaveSucceeds : List Event → String → Bool
  Serialize : UWorld → String
  RouteCount : List Event → String → Nat
  SpawnerCount : List Event → Nat

/-- The commandlet's working scene, the files on disk and the calls issued so far. -/
structure State where
  World : UWorld
  Files : List (String × String)
  Log : List Event

/-! ## File system -/

/-- `FPaths::FileExists`. -/
def FileExists (files : List (String × String)) (p : String) : Bool :=
  files.any (fun f => f.1 == p)

/-- `FFileHelper::LoadFileToString`. -/
def LoadFileToString (files : List (String × String)) (p : String) : Option String :=
  (files.find? (fun f => f.1 == p)).map Prod.snd

/-- The files after writing `text` at `p`, replacing what was there. -/
def WriteFile (files : List (String × String)) (p text : String) : List (String × String) :=
  (p, text) :: files.filter (fun f => !(f.1 == p))

/-- `FFileHelper::SaveStringToFile`. -/
def SaveStringToFile (st : State) (text p : String) : State :=
  { st with Files := WriteFile st.Files p text,
            Log := st.Log ++ [Event.SaveStringToFile p text] }

/-! ## Relocation (`MoveMeshesForSemanticSegmentation`) -/

/-- `TMap::Add`: sets the value at `k`, appending the key when it is new.  The map is
kept as the list of its pairs in insertion order, the order its iteration follows. -/
def TMap.Add (m : List (String × List FAssetData)) (k : String) (v : List FAssetData) :
    List (String × List FAssetData) :=
  if m.any (fun e => e.1 == k) then m.map (fun e => if e.1 == k then (k, v) else e)
  else m ++ [(k, v)]

/-- `Map[k].Add(a)`: appends `a` to the array stored at `k`. -/
def TMap.AddTo (m : List (String × List FAssetData)) (k : String) (a : FAssetData) :
    List (String × List FAssetData) :=
  m.map (fun e => if e.1 == k then (e.1, e.2 ++ [a]) else e)

/-- The array stored at `k`, empty when `k` is no key. -/
def TMap.Find (m : List (String × List FAssetData)) (k : String) : List FAssetData :=
  ((m.find? (fun e => e.1 == k)).map Prod.snd).getD []

/-- The body of the asset loop of `MoveMeshesForSemanticSegmentation`: the asset is
checked against `SrcPath` and added to the array of its folder. -/
def MoveMeshesForSemanticSegmentation.Classify (sc : ESearchCase) (SrcPath : String)
    (AssetDataMap : List (String × List FAssetData)) (MapAsset : FAssetData) :
    List (String × List FAssetData) :=
  if FString.Len SrcPath ≠ 0 then
    if !(FString.StartsWith sc MapAsset.PackageName SrcPath) then AssetDataMap
    else if FString.Contains sc MapAsset.AssetName SSTags.ROAD then
      TMap.AddTo AssetDataMap SSTags.ROAD MapAsset
    else if FString.Contains sc MapAsset.AssetName SSTags.MARKING then
      TMap.AddTo AssetDataMap SSTags.ROADLINES MapAsset
    else if FString.Contains sc MapAsset.AssetName SSTags.TERRAIN then
      TMap.AddTo AssetDataMap SSTags.VEGETATION MapAsset
    else
      TMap.AddTo AssetDataMap SSTags.OTHER MapAsset
  else AssetDataMap

/-- The grouping loops of `MoveMeshesForSemanticSegmentation`: the map is
initialised with the four destination keys, then every enumerated asset is
classified. -/
def MoveMeshesForSemanticSegmentation.AssetDataMap (sc : ESearchCase) (SrcPath : String)
    (MoveMapContents : List FAssetData) : List (String × List FAssetData) :=
  let DestinationPaths := [SSTags.OTHER, SSTags.ROAD, SSTags.ROADLINES, SSTags.VEGETATION]
  let AssetDataMap := DestinationPaths.foldl (fun m Paths => TMap.Add m Paths []) []
  MoveMapContents.foldl (MoveMeshesForSemanticSegmentation.Classify sc SrcPath) AssetDataMap

/-- `ContentBrowserUtils::MoveAssets`. -/
def MoveAssets (st : State) (Assets : List FAssetData) (DestPath : String) : State :=
  { st with Log := st.Log ++ [Event.MoveAssets Assets DestPath] }

/-- `UPrepareAssetsForCookingCommandlet::MoveMeshesForSemanticSegmentation`. -/
def MoveMeshesForSemanticSegmentation (env : Env) (st : State) (PackageName MapName : String) :
    State :=
  let SrcPath := "/Game/" ++ PackageName ++ "/Maps/" ++ MapName
  let MoveMapContents := env.GetAssetDataList st.Log [SrcPath]
  let AssetDataMap :=
    MoveMeshesForSemanticSegmentation.AssetDataMap env.SearchCase SrcPath MoveMapContents
  AssetDataMap.foldl (fun s Elem =>
    let DestPath := "/Game/" ++ PackageName ++ "/Static/" ++ Elem.1 ++ "/" ++ MapName
    MoveAssets s Elem.2 DestPath) st

/-- `UPrepareAssetsForCookingCommandlet::MoveMeshes`. -/
def MoveMeshes (env : Env) (st : State) (PackageName : String) (MapsPaths : List FMapData) :
    State :=
  MapsPaths.foldl (fun s Map => MoveMeshesForSemanticSegmentation env s PackageName Map.Name) st

/-! ## Scene assembly (`LoadWorld`, `SpawnMeshesToWorld`, `DestroySpawnedActorsInWorld`) -/

/-- The largest identity among the live instances. -/
def UWorld.MaxId (W : UWorld) : Nat :=
  (W.Actors.map (fun a => a.Id)).foldl max 0

/-- `UWorld::SpawnActor`: a new live instance whose identity differs from every
live one. -/
def UWorld.SpawnActor (W : UWorld) (Class : ActorClass) (StaticMesh : Option FAssetData)
    (Materials : List (Nat × MaterialMember)) : UWorld × AActor :=
  let Actor : AActor := ⟨W.MaxId + 1, Class, StaticMesh, Materials⟩
  ({ W with Actors := W.Actors ++ [Actor] }, Actor)

/-- `AActor::Destroy`: the instance leaves the scene. -/
def UWorld.DestroyActor (W : UWorld) (Id : Nat) : UWorld :=
  { W with Actors := W.Actors.filter (fun a => !(a.Id == Id)) }

/-- `World->SpawnActor` on the commandlet's scene. -/
def SpawnActor (st : State) (Class : ActorClass) (StaticMesh : Option FAssetData)
    (Materials : List (Nat × MaterialMember)) : State × AActor :=
  let r := st.World.SpawnActor Class StaticMesh Materials
  ({ st with World := r.1, Log := st.Log ++ [Event.SpawnActor r.2.Id] }, r.2)

/-- `Actor->Destroy()` on the commandlet's scene. -/
def DestroyActor (st : State) (Id : Nat) : State :=
  { st with World := st.World.DestroyActor Id, Log := st.Log ++ [Event.DestroyActor Id] }

/-- `World->MarkPackageDirty()`. -/
def MarkPackageDirty (st : State) : State :=
  { st with World := { st.World with Dirty := true } }

/-- `UPrepareAssetsForCookingCommandlet::LoadWorld`: the asset data popped from the
list found under the base-map folder, when the list is not empty. -/
def LoadWorld (env : Env) (st : State) : State × Option UWorld :=
  let BaseMap := "/Game/Carla/Maps/BaseMap"
  let AssetDatas := env.GetWorldDataList st.Log BaseMap
  let st1 := { st with Log := st.Log ++ [Event.LoadWorld BaseMap] }
  if AssetDatas.length > 0 then (st1, AssetDatas.getLast?) else (st1, none)

/-- The body of the `if (bUseCarlaMaterials)` block of `SpawnMeshesToWorld`: the
`SetMaterial` calls made for an asset name. -/
def SpawnMeshesToWorld.SetMaterials (sc : ESearchCase) (bUseCarlaMaterials : Bool)
    (AssetName : String) : List (Nat × MaterialMember) :=
  if bUseCarlaMaterials then
    if FString.Contains sc AssetName SSTags.MARKING then
      [(0, MaterialMember.MarkingNodeMaterial), (1, MaterialMember.MarkingNodeMaterialAux)]
    else if FString.Contains sc AssetName SSTags.ROAD then
      [(0, MaterialMember.RoadNodeMaterial)]
    else if FString.Contains sc AssetName SSTags.TERRAIN then
      [(0, MaterialMember.TerrainNodeMaterial)]
    else []
  else []

/-- The spawn loop of `SpawnMeshesToWorld`. -/
def SpawnMeshesToWorld.Loop (sc : ESearchCase) (bUseCarlaMaterials : Bool)
    (MapContents : List FAssetData) (acc : State × List AActor) : State × List AActor :=
  MapContents.foldl (fun (acc : State × List AActor) MapAsset =>
    let sp := SpawnActor acc.1 ActorClass.StaticMeshActor (some MapAsset)
      (SpawnMeshesToWorld.SetMaterials sc bUseCarlaMaterials MapAsset.AssetName)
    (sp.1, acc.2 ++ [sp.2])) acc

/-- `UPrepareAssetsForCookingCommandlet::SpawnMeshesToWorld`. -/
def SpawnMeshesToWorld (env : Env) (st : State) (AssetsPaths : List String)
    (bUseCarlaMaterials : Bool) : State × List AActor :=
  let MapContents := env.GetAssetDataList st.Log AssetsPaths
  let r := SpawnMeshesToWorld.Loop env.SearchCase bUseCarlaMaterials MapContents (st, [])
  (MarkPackageDirty r.1, r.2)

/-- The loop `for (auto Actor : Actors) Actor->Destroy()`. -/
def DestroyAll (st : State) (X : List AActor) : State :=
  X.foldl (fun s Actor => DestroyActor s Actor.Id) st

/-- `UPrepareAssetsForCookingCommandlet::DestroySpawnedActorsInWorld`. -/
def DestroySpawnedActorsInWorld (st : State) (SpawnedActors : List AActor) : State :=
  MarkPackageDirty (DestroyAll st SpawnedActors)

/-! ## Persistence (`SavePackage`, `SaveWorld`) -/

/-- `UPackage::SavePackage`: the engine's save.  When it succeeds the serialised
scene stands at `FileName`. -/
def UPackage.SavePackage (env : Env) (st : State) (FileName : String) : State × Bool :=
  let Ok := env.SaveSucceeds st.Log FileName
  let Files := if Ok then WriteFile st.Files FileName (env.Serialize st.World) else st.Files
  ({ st with Files := Files, Log := st.Log ++ [Event.SavePackage FileName Ok] }, Ok)

/-- `UPrepareAssetsForCookingCommandlet::SavePackage`. -/
def SavePackage (env : Env) (st : State) (PackagePath : String) : State × Bool :=
  let PackageFileName := env.LongPackageNameToFilename PackagePath env.MapPackageExtension
  if FileExists st.Files PackageFileName then
    (st, false)
  else
    UPackage.SavePackage env st PackageFileName

/-- The road-network helper and the instances it generated. -/
structure AOpenDriveActor where
  Self : AActor
  RoutePlanners : List AActor
  VehicleSpawners : List AActor

/-- The spawning of `n` instances of one class. -/
def SpawnMany (Class : ActorClass) : Nat → State → State × List AActor
  | 0, st => (st, [])
  | n + 1, st =>
    let sp := SpawnActor st Class none []
    let rest := SpawnMany Class n sp.1
    (rest.1, sp.2 :: rest.2)

/-- Modelled from the spec: `AOpenDriveActor::BuildRoutes`, which is not part of this
file; the route-generation step of section 4.4 adds generated content to the scene. -/
def AOpenDriveActor.BuildRoutes (env : Env) (st : State) (A : AOpenDriveActor)
    (WorldName : String) : State × AOpenDriveActor :=
  let r := SpawnMany ActorClass.RoutePlanner (env.RouteCount st.Log WorldName) st
  (r.1, { A with RoutePlanners := A.RoutePlanners ++ r.2 })

/-- Modelled from the spec: `AOpenDriveActor::AddSpawners`, which is not part of this
file; the spawn-point-generation step of section 4.4 adds generated content to the
scene. -/
def AOpenDriveActor.AddSpawners (env : Env) (st : State) (A : AOpenDriveActor) :
    State × AOpenDriveActor :=
  let r := SpawnMany ActorClass.VehicleSpawnPoint (env.SpawnerCount st.Log) st
  (r.1, { A with VehicleSpawners := A.VehicleSpawners ++ r.2 })

/-- Modelled from the spec: `AOpenDriveActor::RemoveRoutes`, which is not part of this
file; section 4.4 has the helper's generated content destroyed after the save. -/
def AOpenDriveActor.RemoveRoutes (st : State) (A : AOpenDriveActor) :
    State × AOpenDriveActor :=
  (DestroyAll st A.RoutePlanners, { A with RoutePlanners := [] })

/-- Modelled from the spec: `AOpenDriveActor::RemoveSpawners`, which is not part of
this file; section 4.4 has the helper's generated content destroyed after the save. -/
def AOpenDriveActor.RemoveSpawners (st : State) (A : AOpenDriveActor) :
    State × AOpenDriveActor :=
  (DestroyAll st A.VehicleSpawners, { A with VehicleSpawners := [] })

/-- The package path `SaveWorld` builds. -/
def SaveWorld.PackagePath (DestPath WorldName : String) : String :=
  DestPath ++ "/" ++ WorldName

/-- The descriptor path `SaveWorld` looks for. -/
def SaveWorld.PathXODR (env : Env) (PackageName WorldName : String) : String :=
  env.ProjectContentDir ++ PackageName ++ "/Maps/" ++ WorldName ++ "/OpenDrive/" ++
    WorldName ++ ".xodr"

/-- The first block of `SaveWorld`: the package is given its folder, the scene is
renamed to `WorldName` and registered under the package path. -/
def SaveWorld.Rename (st : State) (DestPath WorldName : String) : State :=
  -- Create Package to save
  let st := { st with World := { st.World with FolderName := DestPath, Dirty := true } }
  -- Renaming map
  let PackagePath := SaveWorld.PackagePath DestPath WorldName
  { st with World :=
    { st.World with Name := WorldName, RegistryPath := PackagePath, Dirty := true } }

/-- The branch of `SaveWorld` taken when the descriptor exists: the helper is spawned
and generates its content, the package is saved, the content and the helper are
destroyed. -/
def SaveWorld.SaveWithOpenDrive (env : Env) (st : State) (WorldName PackagePath : String) :
    State :=
  let sp := SpawnActor st ActorClass.OpenDriveActor none []
  let OpenWorldActor : AOpenDriveActor := ⟨sp.2, [], []⟩
  let r1 := AOpenDriveActor.BuildRoutes env sp.1 OpenWorldActor WorldName
  let r2 := AOpenDriveActor.AddSpawners env r1.1 r1.2
  let saved := SavePackage env r2.1 PackagePath
  let r3 := AOpenDriveActor.RemoveRoutes saved.1 r2.2
  let r4 := AOpenDriveActor.RemoveSpawners r3.1 r3.2
  DestroyActor r4.1 r4.2.Self.Id

/-- `UPrepareAssetsForCookingCommandlet::SaveWorld`. -/
def SaveWorld (env : Env) (st : State) (PackageName DestPath WorldName : String) :
    State × Bool :=
  let st := SaveWorld.Rename st DestPath WorldName
  let PackagePath := SaveWorld.PackagePath DestPath WorldName
  -- Check if OpenDrive file exists
  let PathXODR := SaveWorld.PathXODR env PackageName WorldName
  let bPackageSaved := false
  if FileExists st.Files PathXODR then
    (SaveWorld.SaveWithOpenDrive env st WorldName PackagePath, bPackageSaved)
  else
    ((SavePackage env st PackagePath).1, bPackageSaved)

/-! ## Manifest (`GetFirstPackagePath`, `GetAssetsPathFromPackage`) -/

/-- `FJsonObject::GetArrayField`: the array at `key`, empty when there is none. -/
def FJsonValue.GetArrayField (v : FJsonValue) (key : String) : List FJsonValue :=
  match v with
  | FJsonValue.Object fields =>
    match fields.find? (fun f => f.1 == key) with
    | some (_, FJsonValue.Array items) => items
    | _ => []
  | _ => []

/-- `FJsonObject::GetStringField`: the string at `key`, empty when there is none. -/
def FJsonValue.GetStringField (v : FJsonValue) (key : String) : String :=
  match v with
  | FJsonValue.Object fields =>
    match fields.find? (fun f => f.1 == key) with
    | some (_, FJsonValue.Text s) => s
    | _ => ""
  | _ => ""

/-- `FJsonObject::GetBoolField`: the boolean at `key`, false when there is none. -/
def FJsonValue.GetBoolField (v : FJsonValue) (key : String) : Bool :=
  match v with
  | FJsonValue.Object fields =>
    match fields.find? (fun f => f.1 == key) with
    | some (_, FJsonValue.Boolean b) => b
    | _ => false
  | _ => false

/-- `UPrepareAssetsForCookingCommandlet::GetFirstPackagePath`. -/
def GetFirstPackagePath (env : Env) (st : State) (PackageName : String) : String :=
  let PackageList :=
    env.FindFilesRecursive st.Log env.ProjectContentDir (PackageName ++ ".Package.json")
  match PackageList with
  | [] => ""
  | first :: _ => env.ConvertToAbsolutePath first

/-- `UPrepareAssetsForCookingCommandlet::GetAssetsPathFromPackage`. -/
def GetAssetsPathFromPackage (env : Env) (st : State) (PackageName : String) : FAssetsPaths :=
  let PackageJsonFilePath := GetFirstPackagePath env st PackageName
  match LoadFileToString st.Files PackageJsonFilePath with
  | some MapsFileJsonContent =>
    match env.Deserialize MapsFileJsonContent with
    | some JsonParsed =>
      { MapsPaths := (JsonParsed.GetArrayField "maps").map (fun MapJsonObject =>
          { Name := MapJsonObject.GetStringField "name",
            Path := MapJsonObject.GetStringField "path",
            bUseCarlaMapMaterials := MapJsonObject.GetBoolField "use_carla_materials" }),
        PropsPaths := (JsonParsed.GetArrayField "props").map (fun PropJsonObject =>
          PropJsonObject.GetStringField "path") }
    | none => { MapsPaths := [], PropsPaths := [] }
  | none => { MapsPaths := [], PropsPaths := [] }

/-! ## Path files -/

/-- The function `SaveStringTextToFile`. -/
def SaveStringTextToFile (env : Env) (st : State) (SaveDirectory FileName SaveText : String)
    (bAllowOverWriting : Bool) : State × Bool :=
  if env.CreateDirectoryTree st.Log SaveDirectory then
    let AbsoluteFilePath := SaveDirectory ++ "/" ++ FileName
    if bAllowOverWriting || !(FileExists st.Files AbsoluteFilePath) then
      (SaveStringToFile st SaveText AbsoluteFilePath, true)
    else (st, true)
  else (st, true)

/-- The text `GenerateMapPathsFile` builds in `MapPathData`. -/
def GenerateMapPathsFile.MapPathData (sc : ESearchCase) (AssetsPaths : FAssetsPaths)
    (PropsMapPath : String) : String :=
  let MapPathData := AssetsPaths.MapsPaths.foldl
    (fun acc Map => acc ++ (Map.Path ++ "/" ++ Map.Name ++ "+")) ""
  if FString.IsEmpty PropsMapPath then
    MapPathData ++ PropsMapPath
  else
    if !(FString.IsEmpty MapPathData) then FString.RemoveFromEnd sc MapPathData "+"
    else MapPathData

/-- `UPrepareAssetsForCookingCommandlet::GenerateMapPathsFile`. -/
def GenerateMapPathsFile (env : Env) (st : State) (AssetsPaths : FAssetsPaths)
    (PropsMapPath : String) : State :=
  let MapPathData := GenerateMapPathsFile.MapPathData env.SearchCase AssetsPaths PropsMapPath
  let SaveDirectory := env.ProjectContentDir
  let FileName := "MapPaths.txt"
  (SaveStringTextToFile env st SaveDirectory FileName MapPathData true).1

/-- `UPrepareAssetsForCookingCommandlet::GeneratePackagePathFile`. -/
def GeneratePackagePathFile (env : Env) (st : State) (PackageName : String) : State :=
  let SaveDirectory := env.ProjectContentDir
  let FileName := "PackagePath.txt"
  let PackageJsonFilePath := GetFirstPackagePath env st PackageName
  (SaveStringTextToFile env st SaveDirectory FileName PackageJsonFilePath true).1

/-! ## Modes (`PrepareMapsForCooking`, `PreparePropsForCooking`, `Main`) -/

/-- One pass of the loop of `PrepareMapsForCooking`. -/
def PrepareMapsForCooking.Iteration (env : Env) (PackageName : String) (st : State)
    (Map : FMapData) : State :=
  let BasePath := "/Game/" ++ PackageName ++ "/Static/"
  let MapPath := "/" ++ Map.Name
  let OtherPath := BasePath ++ SSTags.OTHER ++ MapPath
  let RoadsPath := BasePath ++ SSTags.ROAD ++ MapPath
  let RoadLinesPath := BasePath ++ SSTags.ROADLINES ++ MapPath
  let VegetationPath := BasePath ++ SSTags.VEGETATION ++ MapPath
  let DataPath := [OtherPath, RoadsPath, RoadLinesPath, VegetationPath]
  let sp := SpawnMeshesToWorld env st DataPath Map.bUseCarlaMapMaterials
  let saved := SaveWorld env sp.1 PackageName Map.Path Map.Name
  DestroySpawnedActorsInWorld saved.1 sp.2

/-- `UPrepareAssetsForCookingCommandlet::PrepareMapsForCooking`.  No result when no
base scene is found (the checked cast of the missing asset stops the process). -/
def PrepareMapsForCooking (env : Env) (st : State) (PackageName : String)
    (MapsPaths : List FMapData) : Option State :=
  match LoadWorld env st with
  | (st1, some World) =>
    some (MapsPaths.foldl (PrepareMapsForCooking.Iteration env PackageName)
      { st1 with World := World })
  | (_, none) => none

/-- `UPrepareAssetsForCookingCommandlet::PreparePropsForCooking`.  No result when no
base scene is found. -/
def PreparePropsForCooking (env : Env) (st : State) (PackageName : String)
    (PropsPaths : List String) (MapDestPath : String) : Option State :=
  match LoadWorld env st with
  | (st1, some World) =>
    let st2 := { st1 with World := World }
    let PropPathDirs := PropsPaths.map (fun PropPath =>
      FString.SplitLeftFromEnd ESearchCase.IgnoreCase PropPath "/")
    let sp := SpawnMeshesToWorld env st2 PropPathDirs false
    let MapName := "PropsMap"
    let saved := SaveWorld env sp.1 PackageName MapDestPath MapName
    some (DestroySpawnedActorsInWorld saved.1 sp.2)
  | (_, none) => none

/-- The mode dispatch of `Main` on the manifest content it has read. -/
def Main.Dispatch (env : Env) (st : State) (PackageParams : FPackageParams)
    (AssetsPaths : FAssetsPaths) : Option (State × Int) :=
  if PackageParams.bOnlyMoveMeshes then
    some (MoveMeshes env st PackageParams.Name AssetsPaths.MapsPaths, 0)
  else
    if PackageParams.bOnlyPrepareMaps then
      (PrepareMapsForCooking env st PackageParams.Name AssetsPaths.MapsPaths).map
        (fun s => (s, 0))
    else
      let PropsMapPath := ""
      let r : Option (State × String) :=
        if AssetsPaths.PropsPaths.length > 0 then
          let MapName := "PropsMap"
          let PropsMapPath := "/Game/" ++ PackageParams.Name ++ "/Maps/" ++ MapName
          (PreparePropsForCooking env st PackageParams.Name AssetsPaths.PropsPaths MapName).map
            (fun s => (s, PropsMapPath))
        else some (st, PropsMapPath)
      r.map (fun sp =>
        let s1 := GenerateMapPathsFile env sp.1 AssetsPaths sp.2
        (GeneratePackagePathFile env s1 PackageParams.Name, 0))

/-- `UPrepareAssetsForCookingCommandlet::Main`, on the parameters `ParseParams`
extracted. -/
def Main (env : Env) (st : State) (PackageParams : FPackageParams) : Option (State × Int) :=
  let AssetsPaths := GetAssetsPathFromPackage env st PackageParams.Name
  Main.Dispatch env st PackageParams AssetsPaths

/-! ## The classification tables, as tables -/

/-- The relocation table: the folder an asset name is sorted into, by ordered
substring checks, `Roads` first. -/
def RelocationFolder (sc : ESearchCase) (AssetName : String) : String :=
  if FString.Contains sc AssetName "Roads" then "Roads"
  else if FString.Contains sc AssetName "Marking" then "RoadLines"
  else if FString.Contains sc AssetName "Terrain" then "Vegetation"
  else "Other"

/-- The assets of `Contents` under `SrcPath` that the relocation table sends to
`Folder`, in enumeration order. -/
def RelocationBucket (sc : ESearchCase) (SrcPath : String) (Contents : List FAssetData)
    (Folder : String) : List FAssetData :=
  Contents.filter (fun a =>
    FString.StartsWith sc a.PackageName SrcPath && (RelocationFolder sc a.AssetName == Folder))

/-! ## Event classes, scene relations and examples used by the statements -/

/-- The moves `MoveMeshesForSemanticSegmentation` issues for one map. -/
def RelocationMoves (env : Env) (Log : List Event) (PackageName MapName : String) :
    List Event :=
  (MoveMeshesForSemanticSegmentation.AssetDataMap env.SearchCase
      ("/Game/" ++ PackageName ++ "/Maps/" ++ MapName)
      (env.GetAssetDataList Log ["/Game/" ++ PackageName ++ "/Maps/" ++ MapName])).map
    (fun e => Event.MoveAssets e.2 ("/Game/" ++ PackageName ++ "/Static/" ++ e.1 ++ "/" ++ MapName))

/-- A base scene with one instance. -/
def Example.BaseWorld : UWorld :=
  { Name := "BaseMap", FolderName := "/Game/Carla/Maps", RegistryPath := "/Game/Carla/Maps/BaseMap",
    Dirty := false, Actors := [⟨1, ActorClass.Level, none, []⟩] }

/-- An engine that finds `Contents` under every path, saves with success and finds
no manifest. -/
def Example.Engine (sc : ESearchCase) (Contents : List FAssetData) : Env :=
  { SearchCase := sc
    ProjectContentDir := "/Content/"
    MapPackageExtension := ".umap"
    LongPackageNameToFilename := fun p ext => p ++ ext
    ConvertToAbsolutePath := fun p => p
    Deserialize := fun _ => none
    GetAssetDataList := fun _ _ => Contents
    GetWorldDataList := fun _ _ => [Example.BaseWorld]
    FindFilesRecursive := fun _ _ _ => []
    CreateDirectoryTree := fun _ _ => true
    SaveSucceeds := fun _ _ => true
    Serialize := fun W => W.Name
    RouteCount := fun _ _ => 2
    SpawnerCount := fun _ => 1 }

/-- A state with an empty scene, no file and no call made. -/
def Example.Start : State :=
  { World := { Name := "", FolderName := "", RegistryPath := "", Dirty := false, Actors := [] },
    Files := [], Log := [] }

/-- The events of the scene's life: loading, spawning, destroying, saving. -/
def Event.IsScene : Event → Bool
  | Event.LoadWorld _ => true
  | Event.SpawnActor _ => true
  | Event.DestroyActor _ => true
  | Event.SavePackage _ _ => true
  | Event.MoveAssets _ _ => false
  | Event.SaveStringToFile _ _ => false

/-- The events that spawn or destroy an instance. -/
def Event.IsInstance : Event → Bool
  | Event.SpawnActor _ => true
  | Event.DestroyActor _ => true
  | _ => false

/-- The events that invoke the engine's save. -/
def Event.IsEngineSave : Event → Bool
  | Event.SavePackage _ _ => true
  | _ => false

/-- The events that move assets. -/
def Event.IsMove : Event → Bool
  | Event.MoveAssets _ _ => true
  | _ => false

/-- The events that write a text file. -/
def Event.IsWrite : Event → Bool
  | Event.SaveStringToFile _ _ => true
  | _ => false

/-- The destination of a move. -/
def Event.MoveDest : Event → Option String
  | Event.MoveAssets _ DestPath => some DestPath
  | _ => none

/-- The state `st2` has the calls of `st1` followed by calls that satisfy `P`. -/
def LogExt (P : Event → Bool) (st1 st2 : State) : Prop :=
  ∃ evs : List Event, st2.Log = st1.Log ++ evs ∧ ∀ e ∈ evs, P e = true

/-- The largest identity in a list of instances. -/
def maxId (l : List AActor) : Nat := (l.map (fun a => a.Id)).foldl max 0

/-- The scene of `st2` is the scene of `st1` with the new instances `N` appended,
every one with an identity above those of `st1`; the files are those of `st1`. -/
def Grown (st1 st2 : State) (N : List AActor) : Prop :=
  st2.World.Actors = st1.World.Actors ++ N ∧
  (∀ A ∈ N, maxId st1.World.Actors < A.Id) ∧
  st2.Files = st1.Files ∧
  st2.World.RegistryPath = st1.World.RegistryPath

/-- The spawn-phase table: the `SetMaterial` calls an asset name receives, by ordered
substring checks, `Marking` first, then `Roads`, then `Terrain`; none when category
materials are not used. -/
def SpawnMaterialTable (sc : ESearchCase) (useCategoryMaterials : Bool) (AssetName : String) :
    List (Nat × MaterialMember) :=
  if useCategoryMaterials = false then []
  else if FString.Contains sc AssetName "Marking" then
    [(0, MaterialMember.MarkingNodeMaterial), (1, MaterialMember.MarkingNodeMaterialAux)]
  else if FString.Contains sc AssetName "Roads" then [(0, MaterialMember.RoadNodeMaterial)]
  else if FString.Contains sc AssetName "Terrain" then [(0, MaterialMember.TerrainNodeMaterial)]
  else []

/-- A state in which the package of map `Town` and its descriptor stand on disk. -/
def Example.SavedState : State :=
  { Example.Start with
    Files := [("/Game/Pkg/Maps/Town.umap", "BaseMap"),
              ("/Content/Pkg/Maps/Town/OpenDrive/Town.xodr", "xodr")] }

/-- The four destinations of the moves issued for one map, in issue order. -/
def RelocationDestinations (PackageName MapName : String) : List String :=
  [SSTags.OTHER, SSTags.ROAD, SSTags.ROADLINES, SSTags.VEGETATION].map
    (fun Folder => "/Game/" ++ PackageName ++ "/Static/" ++ Folder ++ "/" ++ MapName)

/-! ## Relocation: lemmas -/

theorem RelocationFolder_cases (sc : ESearchCase) (n : String) :
    RelocationFolder sc n = "Roads" ∨ RelocationFolder sc n = "RoadLines" ∨
    RelocationFolder sc n = "Vegetation" ∨ RelocationFolder sc n = "Other" := by
  unfold RelocationFolder
  split
  · exact Or.inl rfl
  · split
    · exact Or.inr (Or.inl rfl)
    · split
      · exact Or.inr (Or.inr (Or.inl rfl))
      · exact Or.inr (Or.inr (Or.inr rfl))

theorem StartsWith_of_Len_zero (sc : ESearchCase) (s SrcPath : String)
    (h : FString.Len SrcPath = 0) : FString.StartsWith sc s SrcPath = false := by
  unfold FString.Len at h
  simp [FString.StartsWith, h]

theorem RelocationBucket_single (sc : ESearchCase) (SrcPath : String) (a : FAssetData)
    (k : String) :
    RelocationBucket sc SrcPath [a] k =
      if (FString.StartsWith sc a.PackageName SrcPath &&
          (RelocationFolder sc a.AssetName == k)) = true then [a] else [] := by
  unfold RelocationBucket
  rw [List.filter_cons, List.filter_nil]

theorem Classify_four (sc : ESearchCase) (SrcPath : String) (a : FAssetData)
    (o r l v : List FAssetData) :
    MoveMeshesForSemanticSegmentation.Classify sc SrcPath
        [("Other", o), ("Roads", r), ("RoadLines", l), ("Vegetation", v)] a =
      [("Other", o ++ RelocationBucket sc SrcPath [a] "Other"),
       ("Roads", r ++ RelocationBucket sc SrcPath [a] "Roads"),
       ("RoadLines", l ++ RelocationBucket sc SrcPath [a] "RoadLines"),
       ("Vegetation", v ++ RelocationBucket sc SrcPath [a] "Vegetation")] := by
  simp only [RelocationBucket_single]
  unfold MoveMeshesForSemanticSegmentation.Classify RelocationFolder
  by_cases hL : FString.Len SrcPath = 0
  · simp [hL, StartsWith_of_Len_zero sc _ SrcPath hL]
  · cases hS : FString.StartsWith sc a.PackageName SrcPath
    · simp [hL]
    · cases hR : FString.Contains sc a.AssetName "Roads"
      · cases hM : FString.Contains sc a.AssetName "Marking"
        · cases hT : FString.Contains sc a.AssetName "Terrain" <;>
            simp [hL, hR, hM, hT, TMap.AddTo, SSTags.ROAD, SSTags.MARKING, SSTags.TERRAIN,
              SSTags.OTHER, SSTags.ROADLINES, SSTags.VEGETATION]
        · simp [hL, hR, hM, TMap.AddTo, SSTags.ROAD, SSTags.MARKING, SSTags.TERRAIN,
            SSTags.OTHER, SSTags.ROADLINES, SSTags.VEGETATION]
      · simp [hL, hR, TMap.AddTo, SSTags.ROAD, SSTags.MARKING, SSTags.TERRAIN,
          SSTags.OTHER, SSTags.ROADLINES, SSTags.VEGETATION]

theorem RelocationBucket_cons (sc : ESearchCase) (SrcPath : String) (a : FAssetData)
    (cs : List FAssetData) (k : String) :
    RelocationBucket sc SrcPath (a :: cs) k =
      RelocationBucket sc SrcPath [a] k ++ RelocationBucket sc SrcPath cs k := by
  unfold RelocationBucket
  rw [← List.filter_append]
  rfl

theorem Classify_foldl (sc : ESearchCase) (SrcPath : String) (cs : List FAssetData) :
    ∀ o r l v : List FAssetData,
    cs.foldl (MoveMeshesForSemanticSegmentation.Classify sc SrcPath)
        [("Other", o), ("Roads", r), ("RoadLines", l), ("Vegetation", v)] =
      [("Other", o ++ RelocationBucket sc SrcPath cs "Other"),
       ("Roads", r ++ RelocationBucket sc SrcPath cs "Roads"),
       ("RoadLines", l ++ RelocationBucket sc SrcPath cs "RoadLines"),
       ("Vegetation", v ++ RelocationBucket sc SrcPath cs "Vegetation")] := by
  induction cs with
  | nil => intro o r l v; simp [RelocationBucket]
  | cons a cs ih =>
    intro o r l v
    rw [List.foldl_cons, Classify_four, ih]
    simp only [RelocationBucket_cons sc SrcPath a cs, List.append_assoc]

theorem AssetDataMap_eq (sc : ESearchCase) (SrcPath : String) (cs : List FAssetData) :
    MoveMeshesForSemanticSegmentation.AssetDataMap sc SrcPath cs =
      [("Other", RelocationBucket sc SrcPath cs "Other"),
       ("Roads", RelocationBucket sc SrcPath cs "Roads"),
       ("RoadLines", RelocationBucket sc SrcPath cs "RoadLines"),
       ("Vegetation", RelocationBucket sc SrcPath cs "Vegetation")] := by
  have h0 : [SSTags.OTHER, SSTags.ROAD, SSTags.ROADLINES, SSTags.VEGETATION].foldl
      (fun m Paths => TMap.Add m Paths []) [] =
      [("Other", []), ("Roads", []), ("RoadLines", []), ("Vegetation", [])] := by
    decide
  unfold MoveMeshesForSemanticSegmentation.AssetDataMap
  simp only [h0]
  rw [Classify_foldl]
  simp

theorem mem_RelocationBucket (sc : ESearchCase) (SrcPath : String) (cs : List FAssetData)
    (k : String) (a : FAssetData) :
    a ∈ RelocationBucket sc SrcPath cs k ↔
      a ∈ cs ∧ FString.StartsWith sc a.PackageName SrcPath = true ∧
        RelocationFolder sc a.AssetName = k := by
  simp [RelocationBucket, List.mem_filter]

theorem count_RelocationBucket (sc : ESearchCase) (SrcPath : String) (cs : List FAssetData)
    (k : String) (a : FAssetData) :
    (RelocationBucket sc SrcPath cs k).count a =
      if FString.StartsWith sc a.PackageName SrcPath = true ∧
          RelocationFolder sc a.AssetName = k then cs.count a else 0 := by
  split
  · rename_i h
    unfold RelocationBucket
    rw [List.count_filter]
    simp [h.1, h.2]
  · rename_i h
    rw [List.count_eq_zero, mem_RelocationBucket]
    intro h2
    exact h ⟨h2.2.1, h2.2.2⟩

theorem MoveAssets_foldl_Log (f : String × List FAssetData → String)
    (m : List (String × List FAssetData)) :
    ∀ st : State,
      (m.foldl (fun s Elem => MoveAssets s Elem.2 (f Elem)) st).Log =
          st.Log ++ m.map (fun e => Event.MoveAssets e.2 (f e)) ∧
      (m.foldl (fun s Elem => MoveAssets s Elem.2 (f Elem)) st).World = st.World ∧
      (m.foldl (fun s Elem => MoveAssets s Elem.2 (f Elem)) st).Files = st.Files := by
  induction m with
  | nil => intro st; simp
  | cons e m ih =>
    intro st
    rw [List.foldl_cons]
    obtain ⟨h1, h2, h3⟩ := ih (MoveAssets st e.2 (f e))
    refine ⟨?_, ?_, ?_⟩
    · rw [h1]; simp [MoveAssets]
    · rw [h2]; rfl
    · rw [h3]; rfl

theorem MoveMeshesForSemanticSegmentation_effect (env : Env) (st : State)
    (PackageName MapName : String) :
    (MoveMeshesForSemanticSegmentation env st PackageName MapName).Log =
        st.Log ++ RelocationMoves env st.Log PackageName MapName ∧
    (MoveMeshesForSemanticSegmentation env st PackageName MapName).World = st.World ∧
    (MoveMeshesForSemanticSegmentation env st PackageName MapName).Files = st.Files := by
  unfold MoveMeshesForSemanticSegmentation RelocationMoves
  exact MoveAssets_foldl_Log
    (fun e => "/Game/" ++ PackageName ++ "/Static/" ++ e.1 ++ "/" ++ MapName) _ st

/-! ## C1: relocation-phase classification -/

/-- C1, the claim as stated fails: the asset `RoadMarking_01` under the import root of
map `Town` of package `Pkg` has a name that contains `Road` and `Marking`, and the
relocation puts it in the `RoadLines` array, not in the `Roads` array, under either
search case. -/
theorem C1_counterexample :
    FString.Contains ESearchCase.CaseSensitive "RoadMarking_01" "Road" = true ∧
    FString.Contains ESearchCase.CaseSensitive "RoadMarking_01" "Marking" = true ∧
    FString.StartsWith ESearchCase.CaseSensitive "/Game/Pkg/Maps/Town/RoadMarking_01"
      ("/Game/" ++ "Pkg" ++ "/Maps/" ++ "Town") = true ∧
    MoveMeshesForSemanticSegmentation.AssetDataMap ESearchCase.CaseSensitive
        ("/Game/" ++ "Pkg" ++ "/Maps/" ++ "Town")
        [⟨"RoadMarking_01", "/Game/Pkg/Maps/Town/RoadMarking_01"⟩] =
      [("Other", []), ("Roads", []),
       ("RoadLines", [⟨"RoadMarking_01", "/Game/Pkg/Maps/Town/RoadMarking_01"⟩]),
       ("Vegetation", [])] ∧
    MoveMeshesForSemanticSegmentation.AssetDataMap ESearchCase.IgnoreCase
        ("/Game/" ++ "Pkg" ++ "/Maps/" ++ "Town")
        [⟨"RoadMarking_01", "/Game/Pkg/Maps/Town/RoadMarking_01"⟩] =
      [("Other", []), ("Roads", []),
       ("RoadLines", [⟨"RoadMarking_01", "/Game/Pkg/Maps/Town/RoadMarking_01"⟩]),
       ("Vegetation", [])] := by
  decide

/-- C1, amended: with the substring `Roads` (the value of `SSTags::ROAD`) in place of
`Road`, the relocation equals the ordered table.  For every search case of the
engine's string search, every package, map and enumerated list of assets, an
asset of the list whose package name starts with the import root stands in the
array of folder `Folder` exactly when `Folder` is what the table gives for its
name: `Roads` if the name contains `Roads`, else `RoadLines` if it contains
`Marking`, else `Vegetation` if it contains `Terrain`, else `Other`.  A name with
both `Roads` and `Marking` goes to `Roads`; a name with `Marking` and without
`Roads` goes to `RoadLines`. -/
theorem C1_relocation_table (sc : ESearchCase) (PackageName MapName : String)
    (Contents : List FAssetData) (a : FAssetData) (Folder : String)
    (hmem : a ∈ Contents)
    (hroot : FString.StartsWith sc a.PackageName
      ("/Game/" ++ PackageName ++ "/Maps/" ++ MapName) = true) :
    (a ∈ TMap.Find (MoveMeshesForSemanticSegmentation.AssetDataMap sc
          ("/Game/" ++ PackageName ++ "/Maps/" ++ MapName) Contents) Folder ↔
      Folder = RelocationFolder sc a.AssetName) ∧
    (FString.Contains sc a.AssetName "Roads" = true →
      FString.Contains sc a.AssetName "Marking" = true →
      a ∈ TMap.Find (MoveMeshesForSemanticSegmentation.AssetDataMap sc
          ("/Game/" ++ PackageName ++ "/Maps/" ++ MapName) Contents) "Roads") ∧
    (FString.Contains sc a.AssetName "Marking" = true →
      FString.Contains sc a.AssetName "Roads" = false →
      a ∈ TMap.Find (MoveMeshesForSemanticSegmentation.AssetDataMap sc
          ("/Game/" ++ PackageName ++ "/Maps/" ++ MapName) Contents) "RoadLines") := by
  have key : ∀ F : String,
      a ∈ TMap.Find (MoveMeshesForSemanticSegmentation.AssetDataMap sc
          ("/Game/" ++ PackageName ++ "/Maps/" ++ MapName) Contents) F ↔
        F = RelocationFolder sc a.AssetName := by
    intro F
    rw [AssetDataMap_eq]
    by_cases h1 : F = "Other"
    · subst h1
      simp [TMap.Find, mem_RelocationBucket, hmem, hroot, eq_comm]
    by_cases h2 : F = "Roads"
    · subst h2
      simp [TMap.Find, mem_RelocationBucket, hmem, hroot, eq_comm]
    by_cases h3 : F = "RoadLines"
    · subst h3
      simp [TMap.Find, mem_RelocationBucket, hmem, hroot, eq_comm]
    by_cases h4 : F = "Vegetation"
    · subst h4
      simp [TMap.Find, mem_RelocationBucket, hmem, hroot, eq_comm]
    have hne : F ≠ RelocationFolder sc a.AssetName := by
      rcases RelocationFolder_cases sc a.AssetName with h | h | h | h <;> rw [h] <;> assumption
    have e1 : ("Other" == F) = false := beq_eq_false_iff_ne.mpr (Ne.symm h1)
    have e2 : ("Roads" == F) = false := beq_eq_false_iff_ne.mpr (Ne.symm h2)
    have e3 : ("RoadLines" == F) = false := beq_eq_false_iff_ne.mpr (Ne.symm h3)
    have e4 : ("Vegetation" == F) = false := beq_eq_false_iff_ne.mpr (Ne.symm h4)
    simp [TMap.Find, List.find?, e1, e2, e3, e4, hne]
  refine ⟨key Folder, ?_, ?_⟩
  · intro hR _
    rw [key]
    simp [RelocationFolder, hR]
  · intro hM hR
    rw [key]
    simp [RelocationFolder, hR, hM]

/-- C1, amended, at a concrete asset: `Roads_Marking_01` under the import root of map
`Town` goes to `Roads`. -/
theorem C1_relocation_table_witness :
    ((⟨"Roads_Marking_01", "/Game/Pkg/Maps/Town/Roads_Marking_01"⟩ : FAssetData) ∈
        [(⟨"Roads_Marking_01", "/Game/Pkg/Maps/Town/Roads_Marking_01"⟩ : FAssetData),
         ⟨"Marking_02", "/Game/Pkg/Maps/Town/Marking_02"⟩]) ∧
    FString.StartsWith ESearchCase.CaseSensitive "/Game/Pkg/Maps/Town/Roads_Marking_01"
      ("/Game/" ++ "Pkg" ++ "/Maps/" ++ "Town") = true ∧
    (⟨"Roads_Marking_01", "/Game/Pkg/Maps/Town/Roads_Marking_01"⟩ : FAssetData) ∈
      TMap.Find (MoveMeshesForSemanticSegmentation.AssetDataMap ESearchCase.CaseSensitive
        ("/Game/" ++ "Pkg" ++ "/Maps/" ++ "Town")
        [⟨"Roads_Marking_01", "/Game/Pkg/Maps/Town/Roads_Marking_01"⟩,
         ⟨"Marking_02", "/Game/Pkg/Maps/Town/Marking_02"⟩]) "Roads" :=
  ⟨by decide, by decide,
    (C1_relocation_table ESearchCase.CaseSensitive "Pkg" "Town"
      [⟨"Roads_Marking_01", "/Game/Pkg/Maps/Town/Roads_Marking_01"⟩,
       ⟨"Marking_02", "/Game/Pkg/Maps/Town/Marking_02"⟩]
      ⟨"Roads_Marking_01", "/Game/Pkg/Maps/Town/Roads_Marking_01"⟩ "Roads"
      (by decide) (by decide)).2.1 (by decide) (by decide)⟩

/-! ## C7: relocation partitions the in-root assets over four arrays -/

/-- C7: for every engine, state, package name and map name, with `Contents` the
assets enumerated under the import root `/Game/<PackageName>/Maps/<MapName>`, the
mapping `MoveMeshesForSemanticSegmentation` builds has exactly the four folder
keys; summed over the four arrays an asset occurs as often as in `Contents` when
its package name starts with the import root and not at all otherwise; no asset
stands in two arrays; every array keeps the enumeration order; and the calls
issued are exactly one move per array, to
`/Game/<PackageName>/Static/<folder>/<MapName>`, with that array. -/
theorem C7_relocation_partition (env : Env) (st : State) (PackageName MapName : String) :
    (MoveMeshesForSemanticSegmentation.AssetDataMap env.SearchCase
        ("/Game/" ++ PackageName ++ "/Maps/" ++ MapName)
        (env.GetAssetDataList st.Log ["/Game/" ++ PackageName ++ "/Maps/" ++ MapName])).map
      Prod.fst = [SSTags.OTHER, SSTags.ROAD, SSTags.ROADLINES, SSTags.VEGETATION] ∧
    (∀ a : FAssetData,
      ((MoveMeshesForSemanticSegmentation.AssetDataMap env.SearchCase
        ("/Game/" ++ PackageName ++ "/Maps/" ++ MapName)
        (env.GetAssetDataList st.Log ["/Game/" ++ PackageName ++ "/Maps/" ++ MapName])).map
          (fun e => e.2.count a)).sum =
        if FString.StartsWith env.SearchCase a.PackageName
            ("/Game/" ++ PackageName ++ "/Maps/" ++ MapName) = true
        then (env.GetAssetDataList st.Log
            ["/Game/" ++ PackageName ++ "/Maps/" ++ MapName]).count a
        else 0) ∧
    (∀ (a : FAssetData) (e1 e2 : String × List FAssetData),
      e1 ∈ MoveMeshesForSemanticSegmentation.AssetDataMap env.SearchCase
        ("/Game/" ++ PackageName ++ "/Maps/" ++ MapName)
        (env.GetAssetDataList st.Log ["/Game/" ++ PackageName ++ "/Maps/" ++ MapName]) →
      e2 ∈ MoveMeshesForSemanticSegmentation.AssetDataMap env.SearchCase
        ("/Game/" ++ PackageName ++ "/Maps/" ++ MapName)
        (env.GetAssetDataList st.Log ["/Game/" ++ PackageName ++ "/Maps/" ++ MapName]) →
      a ∈ e1.2 → a ∈ e2.2 → e1 = e2) ∧
    (∀ (a : FAssetData) (e : String × List FAssetData),
      e ∈ MoveMeshesForSemanticSegmentation.AssetDataMap env.SearchCase
        ("/Game/" ++ PackageName ++ "/Maps/" ++ MapName)
        (env.GetAssetDataList st.Log ["/Game/" ++ PackageName ++ "/Maps/" ++ MapName]) →
      a ∈ e.2 →
      FString.StartsWith env.SearchCase a.PackageName
        ("/Game/" ++ PackageName ++ "/Maps/" ++ MapName) = true) ∧
    (∀ e : String × List FAssetData,
      e ∈ MoveMeshesForSemanticSegmentation.AssetDataMap env.SearchCase
        ("/Game/" ++ PackageName ++ "/Maps/" ++ MapName)
        (env.GetAssetDataList st.Log ["/Game/" ++ PackageName ++ "/Maps/" ++ MapName]) →
      e.2.Sublist
        (env.GetAssetDataList st.Log ["/Game/" ++ PackageName ++ "/Maps/" ++ MapName])) ∧
    (MoveMeshesForSemanticSegmentation env st PackageName MapName).Log =
      st.Log ++
        (MoveMeshesForSemanticSegmentation.AssetDataMap env.SearchCase
          ("/Game/" ++ PackageName ++ "/Maps/" ++ MapName)
          (env.GetAssetDataList st.Log ["/Game/" ++ PackageName ++ "/Maps/" ++ MapName])).map
        (fun e => Event.MoveAssets e.2
          ("/Game/" ++ PackageName ++ "/Static/" ++ e.1 ++ "/" ++ MapName)) := by
  refine ⟨?_, ?_, ?_, ?_, ?_, ?_⟩
  · rw [AssetDataMap_eq]; rfl
  · intro a
    rw [AssetDataMap_eq]
    simp only [List.map_cons, List.map_nil, List.sum_cons, List.sum_nil,
      count_RelocationBucket]
    cases hS : FString.StartsWith env.SearchCase a.PackageName
        ("/Game/" ++ PackageName ++ "/Maps/" ++ MapName)
    · simp
    · rcases RelocationFolder_cases env.SearchCase a.AssetName with h | h | h | h <;>
        simp [h]
  · intro a e1 e2 h1 h2 m1 m2
    rw [AssetDataMap_eq] at h1 h2
    simp only [List.mem_cons, List.mem_nil_iff, or_false] at h1 h2
    rcases h1 with h1 | h1 | h1 | h1 <;> rcases h2 with h2 | h2 | h2 | h2 <;>
      subst h1 <;> subst h2 <;> first
        | rfl
        | (exfalso
           rw [mem_RelocationBucket] at m1 m2
           have h := m1.2.2.symm.trans m2.2.2
           revert h
           decide)
  · intro a e h m
    rw [AssetDataMap_eq] at h
    simp only [List.mem_cons, List.mem_nil_iff, or_false] at h
    rcases h with h | h | h | h <;> subst h <;>
      exact ((mem_RelocationBucket _ _ _ _ _).1 m).2.1
  · intro e h
    rw [AssetDataMap_eq] at h
    simp only [List.mem_cons, List.mem_nil_iff, or_false] at h
    rcases h with h | h | h | h <;> subst h <;> exact List.filter_sublist _
  · exact (MoveMeshesForSemanticSegmentation_effect env st PackageName MapName).1

/-- C7 at a concrete input: of the two assets enumerated for map `Town`, the one under
the import root stands in the `Roads` array and the arrays hold nothing from
outside the root. -/
theorem C7_relocation_partition_witness :
    (MoveMeshesForSemanticSegmentation.AssetDataMap ESearchCase.CaseSensitive
        ("/Game/" ++ "Pkg" ++ "/Maps/" ++ "Town")
        [⟨"Roads_01", "/Game/Pkg/Maps/Town/Roads_01"⟩, ⟨"Roads_02", "/Game/Other/Roads_02"⟩]).map
      Prod.fst = [SSTags.OTHER, SSTags.ROAD, SSTags.ROADLINES, SSTags.VEGETATION] ∧
    FString.StartsWith ESearchCase.CaseSensitive "/Game/Pkg/Maps/Town/Roads_01"
      ("/Game/" ++ "Pkg" ++ "/Maps/" ++ "Town") = true :=
  ⟨(C7_relocation_partition
      (Example.Engine ESearchCase.CaseSensitive
        [⟨"Roads_01", "/Game/Pkg/Maps/Town/Roads_01"⟩, ⟨"Roads_02", "/Game/Other/Roads_02"⟩])
      Example.Start "Pkg" "Town").1,
   (C7_relocation_partition
      (Example.Engine ESearchCase.CaseSensitive
        [⟨"Roads_01", "/Game/Pkg/Maps/Town/Roads_01"⟩, ⟨"Roads_02", "/Game/Other/Roads_02"⟩])
      Example.Start "Pkg" "Town").2.2.2.1
      ⟨"Roads_01", "/Game/Pkg/Maps/Town/Roads_01"⟩
      ("Roads", [⟨"Roads_01", "/Game/Pkg/Maps/Town/Roads_01"⟩]) (by decide) (by decide)⟩

/-! ## Scene assembly: lemmas -/

theorem LogExt_refl (P : Event → Bool) (st : State) : LogExt P st st :=
  ⟨[], by simp, by simp⟩

theorem LogExt_trans {P : Event → Bool} {a b c : State} (h1 : LogExt P a b)
    (h2 : LogExt P b c) : LogExt P a c := by
  obtain ⟨e1, l1, p1⟩ := h1
  obtain ⟨e2, l2, p2⟩ := h2
  refine ⟨e1 ++ e2, by rw [l2, l1, List.append_assoc], ?_⟩
  intro e he
  rcases List.mem_append.1 he with h | h
  · exact p1 e h
  · exact p2 e h

theorem LogExt_mono {P Q : Event → Bool} {a b : State} (h : ∀ e, P e = true → Q e = true)
    (h1 : LogExt P a b) : LogExt Q a b := by
  obtain ⟨e1, l1, p1⟩ := h1
  exact ⟨e1, l1, fun e he => h e (p1 e he)⟩

theorem IsInstance_IsScene (e : Event) (h : Event.IsInstance e = true) :
    Event.IsScene e = true := by
  cases e <;> simp_all [Event.IsInstance, Event.IsScene]

theorem IsInstance_not_IsEngineSave (e : Event) (h : Event.IsInstance e = true) :
    (!Event.IsEngineSave e) = true := by
  cases e <;> simp_all [Event.IsInstance, Event.IsEngineSave]

theorem LogExt_of_Log_eq {P : Event → Bool} {a b c : State} (h1 : LogExt P a b)
    (h2 : c.Log = b.Log) : LogExt P a c := by
  obtain ⟨e1, l1, p1⟩ := h1
  exact ⟨e1, by rw [h2, l1], p1⟩

theorem foldl_max_ge (l : List Nat) : ∀ init : Nat,
    init ≤ l.foldl max init ∧ ∀ x ∈ l, x ≤ l.foldl max init := by
  induction l with
  | nil => intro init; simp
  | cons y l ih =>
    intro init
    obtain ⟨h1, h2⟩ := ih (max init y)
    refine ⟨le_trans (le_max_left _ _) h1, ?_⟩
    intro x hx
    rcases List.mem_cons.1 hx with h | h
    · subst h; exact le_trans (le_max_right _ _) h1
    · exact h2 x h

theorem maxId_ge_of_mem (l : List AActor) (a : AActor) (h : a ∈ l) : a.Id ≤ maxId l := by
  unfold maxId
  exact (foldl_max_ge _ 0).2 _ (List.mem_map_of_mem (fun a : AActor => a.Id) h)

theorem maxId_append_ge (l n : List AActor) : maxId l ≤ maxId (l ++ n) := by
  unfold maxId
  rw [List.map_append, List.foldl_append]
  exact (foldl_max_ge _ _).1

theorem MaxId_eq (W : UWorld) : W.MaxId = maxId W.Actors := rfl

theorem Grown_refl (st : State) : Grown st st [] := by
  simp [Grown]

theorem Grown_trans {a b c : State} {N1 N2 : List AActor} (h1 : Grown a b N1)
    (h2 : Grown b c N2) : Grown a c (N1 ++ N2) := by
  obtain ⟨a1, b1, f1, r1⟩ := h1
  obtain ⟨a2, b2, f2, r2⟩ := h2
  refine ⟨by rw [a2, a1, List.append_assoc], ?_, by rw [f2, f1], by rw [r2, r1]⟩
  intro A hA
  rcases List.mem_append.1 hA with h | h
  · exact b1 A h
  · have := b2 A h
    rw [a1] at this
    exact lt_of_le_of_lt (maxId_append_ge _ _) this

theorem SpawnActor_Grown (st : State) (Class : ActorClass) (StaticMesh : Option FAssetData)
    (Materials : List (Nat × MaterialMember)) :
    Grown st (SpawnActor st Class StaticMesh Materials).1
      [(SpawnActor st Class StaticMesh Materials).2] ∧
    LogExt Event.IsInstance st (SpawnActor st Class StaticMesh Materials).1 ∧
    (SpawnActor st Class StaticMesh Materials).2.StaticMesh = StaticMesh ∧
    (SpawnActor st Class StaticMesh Materials).2.Materials = Materials := by
  refine ⟨⟨rfl, ?_, rfl, rfl⟩, ⟨[Event.SpawnActor (st.World.MaxId + 1)], rfl, ?_⟩, rfl, rfl⟩
  · intro A hA
    rw [List.mem_singleton] at hA
    subst hA
    show maxId st.World.Actors < st.World.MaxId + 1
    rw [MaxId_eq]
    exact Nat.lt_succ_self _
  · intro e he
    rw [List.mem_singleton] at he
    subst he
    rfl

theorem SpawnMany_Grown (Class : ActorClass) (n : Nat) : ∀ st : State,
    Grown st (SpawnMany Class n st).1 (SpawnMany Class n st).2 ∧
    LogExt Event.IsInstance st (SpawnMany Class n st).1 := by
  induction n with
  | zero => intro st; exact ⟨Grown_refl st, LogExt_refl _ st⟩
  | succ n ih =>
    intro st
    obtain ⟨g1, l1, _, _⟩ := SpawnActor_Grown st Class none []
    obtain ⟨g2, l2⟩ := ih (SpawnActor st Class none []).1
    exact ⟨Grown_trans g1 g2, LogExt_trans l1 l2⟩

theorem SpawnMeshesToWorld_Loop (sc : ESearchCase) (b : Bool) (cs : List FAssetData) :
    ∀ (st : State) (acc : List AActor),
    ∃ N : List AActor,
      (SpawnMeshesToWorld.Loop sc b cs (st, acc)).2 = acc ++ N ∧
      Grown st (SpawnMeshesToWorld.Loop sc b cs (st, acc)).1 N ∧
      LogExt Event.IsInstance st (SpawnMeshesToWorld.Loop sc b cs (st, acc)).1 ∧
      N.map (fun A => (A.StaticMesh, A.Materials)) =
        cs.map (fun a => (some a, SpawnMeshesToWorld.SetMaterials sc b a.AssetName)) ∧
      (SpawnMeshesToWorld.Loop sc b cs (st, acc)).1.World.Name = st.World.Name ∧
      (SpawnMeshesToWorld.Loop sc b cs (st, acc)).1.World.RegistryPath =
        st.World.RegistryPath := by
  induction cs with
  | nil =>
    intro st acc
    exact ⟨[], by simp [SpawnMeshesToWorld.Loop], Grown_refl st, LogExt_refl _ st, rfl, rfl, rfl⟩
  | cons a cs ih =>
    intro st acc
    obtain ⟨g1, l1, m1, m2⟩ := SpawnActor_Grown st ActorClass.StaticMeshActor (some a)
      (SpawnMeshesToWorld.SetMaterials sc b a.AssetName)
    obtain ⟨N, hN, g2, l2, hm, hn, hr⟩ := ih
      (SpawnActor st ActorClass.StaticMeshActor (some a)
        (SpawnMeshesToWorld.SetMaterials sc b a.AssetName)).1
      (acc ++ [(SpawnActor st ActorClass.StaticMeshActor (some a)
        (SpawnMeshesToWorld.SetMaterials sc b a.AssetName)).2])
    refine ⟨(SpawnActor st ActorClass.StaticMeshActor (some a)
        (SpawnMeshesToWorld.SetMaterials sc b a.AssetName)).2 :: N, ?_, ?_, ?_, ?_, ?_, ?_⟩
    · show (SpawnMeshesToWorld.Loop sc b cs _).2 = _
      rw [hN]; simp
    · exact Grown_trans g1 g2
    · exact LogExt_trans l1 l2
    · rw [List.map_cons, List.map_cons, hm, m1, m2]
    · exact hn
    · exact hr

theorem SpawnMeshesToWorld_spec (env : Env) (st : State) (AssetsPaths : List String)
    (b : Bool) :
    Grown st (SpawnMeshesToWorld env st AssetsPaths b).1
      (SpawnMeshesToWorld env st AssetsPaths b).2 ∧
    LogExt Event.IsInstance st (SpawnMeshesToWorld env st AssetsPaths b).1 ∧
    (SpawnMeshesToWorld env st AssetsPaths b).2.map (fun A => (A.StaticMesh, A.Materials)) =
      (env.GetAssetDataList st.Log AssetsPaths).map
        (fun a => (some a, SpawnMeshesToWorld.SetMaterials env.SearchCase b a.AssetName)) ∧
    (SpawnMeshesToWorld env st AssetsPaths b).1.World.RegistryPath =
      st.World.RegistryPath := by
  obtain ⟨N, hN, g, l, hm, _, hr⟩ := SpawnMeshesToWorld_Loop env.SearchCase b
    (env.GetAssetDataList st.Log AssetsPaths) st []
  have e2 : (SpawnMeshesToWorld env st AssetsPaths b).2 = N := by
    simpa using hN
  rw [e2]
  exact ⟨⟨g.1, g.2.1, g.2.2.1, g.2.2.2⟩, LogExt_of_Log_eq l rfl, hm, hr⟩

/-! ## C2: spawn-phase material selection -/

theorem SetMaterials_eq_table (sc : ESearchCase) (b : Bool) (n : String) :
    SpawnMeshesToWorld.SetMaterials sc b n = SpawnMaterialTable sc b n := by
  unfold SpawnMeshesToWorld.SetMaterials SpawnMaterialTable
  cases b <;> simp [SSTags.MARKING, SSTags.ROAD, SSTags.TERRAIN]

/-- C2, the claim as stated fails: with category materials in use, the asset `Road_01`
has a name that contains `Road` and not `Marking`, and the instance spawned for it
receives no `SetMaterial` call, under either search case. -/
theorem C2_counterexample :
    FString.Contains ESearchCase.CaseSensitive "Road_01" "Road" = true ∧
    FString.Contains ESearchCase.CaseSensitive "Road_01" "Marking" = false ∧
    (SpawnMeshesToWorld
        (Example.Engine ESearchCase.CaseSensitive [⟨"Road_01", "/Game/Pkg/Static/Roads/Town/Road_01"⟩])
        Example.Start ["/Game/Pkg/Static/Roads/Town"] true).2.map (fun A => A.Materials) = [[]] ∧
    (SpawnMeshesToWorld
        (Example.Engine ESearchCase.IgnoreCase [⟨"Road_01", "/Game/Pkg/Static/Roads/Town/Road_01"⟩])
        Example.Start ["/Game/Pkg/Static/Roads/Town"] true).2.map (fun A => A.Materials) = [[]] := by
  decide

/-- C2, amended: with the substring `Roads` (the value of `SSTags::ROAD`) in place of
`Road`, the material selection equals the ordered table.  For every engine, state,
list of paths and value of `bUseCarlaMaterials`, `SpawnMeshesToWorld` spawns one
instance per enumerated asset, in enumeration order, carrying that asset's mesh
and exactly the `SetMaterial` calls of the table for its name: slots 0 and 1 with
the members `MarkingNodeMaterial` and `MarkingNodeMaterialAux` if the name
contains `Marking`, else slot 0 with the member `RoadNodeMaterial` if it contains
`Roads`, else slot 0 with the member `TerrainNodeMaterial` if it contains
`Terrain`, else none; and none for any name when `bUseCarlaMaterials` is false.
The spawned instances are the ones added to the scene. -/
theorem C2_spawn_material_table (env : Env) (st : State) (AssetsPaths : List String)
    (bUseCarlaMaterials : Bool) :
    (SpawnMeshesToWorld env st AssetsPaths bUseCarlaMaterials).2.map
        (fun A => (A.StaticMesh, A.Materials)) =
      (env.GetAssetDataList st.Log AssetsPaths).map
        (fun a => (some a, SpawnMaterialTable env.SearchCase bUseCarlaMaterials a.AssetName)) ∧
    (SpawnMeshesToWorld env st AssetsPaths false).2.map (fun A => A.Materials) =
      (env.GetAssetDataList st.Log AssetsPaths).map (fun _ => []) ∧
    (SpawnMeshesToWorld env st AssetsPaths bUseCarlaMaterials).1.World.Actors =
      st.World.Actors ++ (SpawnMeshesToWorld env st AssetsPaths bUseCarlaMaterials).2 := by
  obtain ⟨g, _, hm, _⟩ := SpawnMeshesToWorld_spec env st AssetsPaths bUseCarlaMaterials
  obtain ⟨_, _, hm0, _⟩ := SpawnMeshesToWorld_spec env st AssetsPaths false
  refine ⟨?_, ?_, g.1⟩
  · rw [hm]
    simp only [SetMaterials_eq_table]
  · have h := congrArg (List.map Prod.snd) hm0
    simp only [List.map_map] at h
    rw [show (fun A : AActor => A.Materials) = Prod.snd ∘ (fun A => (A.StaticMesh, A.Materials))
      from rfl, h]
    apply List.map_congr_left
    intro a _
    simp [SpawnMeshesToWorld.SetMaterials]

/-! ## Persistence: lemmas -/

theorem FileExists_WriteFile (files : List (String × String)) (p t : String) :
    FileExists (WriteFile files p t) p = true := by
  simp [FileExists, WriteFile]

theorem LoadFileToString_WriteFile (files : List (String × String)) (p t : String) :
    LoadFileToString (WriteFile files p t) p = some t := by
  simp [LoadFileToString, WriteFile, List.find?]

theorem find_filter_ne (files : List (String × String)) (p q : String) (h : q ≠ p) :
    (files.filter (fun f => !(f.1 == p))).find? (fun f => f.1 == q) =
      files.find? (fun f => f.1 == q) := by
  induction files with
  | nil => rfl
  | cons f fs ih =>
    by_cases hp : f.1 = p
    · have hq : (f.1 == q) = false := beq_eq_false_iff_ne.mpr (by rw [hp]; exact Ne.symm h)
      have hp2 : (f.1 == p) = true := by rw [hp]; exact beq_self_eq_true p
      simp only [List.filter_cons, hp2, Bool.not_true, List.find?_cons, hq,
        Bool.false_eq_true, if_false, ih]
    · have hp2 : (f.1 == p) = false := beq_eq_false_iff_ne.mpr hp
      simp only [List.filter_cons, hp2, Bool.not_false, if_true, List.find?_cons, ih]

theorem LoadFileToString_WriteFile_ne (files : List (String × String)) (p q t : String)
    (h : q ≠ p) :
    LoadFileToString (WriteFile files p t) q = LoadFileToString files q := by
  have hq : (p == q) = false := beq_eq_false_iff_ne.mpr (Ne.symm h)
  simp only [LoadFileToString, WriteFile, List.find?_cons, hq, find_filter_ne files p q h]

theorem filter_new_out (A N : List AActor) (q : AActor → Bool)
    (hA : ∀ a ∈ A, q a = true) (hN : ∀ a ∈ N, q a = false) : (A ++ N).filter q = A := by
  rw [List.filter_append, List.filter_eq_self.2 hA, List.filter_eq_nil_iff.2, List.append_nil]
  intro a ha
  simp [hN a ha]

theorem DestroyAll_spec (X : List AActor) : ∀ st : State,
    (DestroyAll st X).World.Actors =
      st.World.Actors.filter (fun a => X.all (fun x => !(a.Id == x.Id))) ∧
    (DestroyAll st X).Files = st.Files ∧
    LogExt Event.IsInstance st (DestroyAll st X) ∧
    (DestroyAll st X).World.RegistryPath = st.World.RegistryPath := by
  induction X with
  | nil => intro st; exact ⟨by simp [DestroyAll], rfl, LogExt_refl _ st, rfl⟩
  | cons x X ih =>
    intro st
    obtain ⟨h1, h2, h3, h4⟩ := ih (DestroyActor st x.Id)
    refine ⟨?_, ?_, ?_, ?_⟩
    · show (DestroyAll (DestroyActor st x.Id) X).World.Actors = _
      rw [h1]
      show List.filter _ (List.filter _ st.World.Actors) = _
      rw [List.filter_filter]
      apply List.filter_congr
      intro a _
      simp [List.all_cons, Bool.and_comm]
    · show (DestroyAll (DestroyActor st x.Id) X).Files = _
      rw [h2]; rfl
    · refine LogExt_trans ⟨[Event.DestroyActor x.Id], rfl, ?_⟩ h3
      intro e he
      rw [List.mem_singleton] at he
      subst he; rfl
    · show (DestroyAll (DestroyActor st x.Id) X).World.RegistryPath = _
      rw [h4]; rfl

/-- Destroying the instances `N` that were appended to the scene `A` above its
identities gives `A` back. -/
theorem filter_destroy_new (A N : List AActor) (hN : ∀ x ∈ N, maxId A < x.Id) :
    (A ++ N).filter (fun a => N.all (fun x => !(a.Id == x.Id))) = A := by
  apply filter_new_out
  · intro a ha
    rw [List.all_eq_true]
    intro x hx
    have h1 := maxId_ge_of_mem A a ha
    have h2 := hN x hx
    have : a.Id ≠ x.Id := by omega
    simp [this]
  · intro a ha
    rw [List.all_eq_false]
    exact ⟨a, ha, by simp⟩

theorem SavePackage_spec (env : Env) (st : State) (PackagePath : String) :
    (SavePackage env st PackagePath).1.World = st.World ∧
    LogExt Event.IsScene st (SavePackage env st PackagePath).1 ∧
    (FileExists st.Files (env.LongPackageNameToFilename PackagePath env.MapPackageExtension)
        = true → SavePackage env st PackagePath = (st, false)) ∧
    (FileExists st.Files (env.LongPackageNameToFilename PackagePath env.MapPackageExtension)
        = false →
      env.SaveSucceeds st.Log (env.LongPackageNameToFilename PackagePath env.MapPackageExtension)
        = true →
      (SavePackage env st PackagePath).2 = true ∧
      (SavePackage env st PackagePath).1.Files =
        WriteFile st.Files (env.LongPackageNameToFilename PackagePath env.MapPackageExtension)
          (env.Serialize st.World)) := by
  have e : SavePackage env st PackagePath =
      if FileExists st.Files
          (env.LongPackageNameToFilename PackagePath env.MapPackageExtension) = true
      then (st, false)
      else UPackage.SavePackage env st
        (env.LongPackageNameToFilename PackagePath env.MapPackageExtension) := rfl
  rw [e]
  cases hex : FileExists st.Files
      (env.LongPackageNameToFilename PackagePath env.MapPackageExtension)
  · simp only [Bool.false_eq_true, if_false]
    refine ⟨rfl, ⟨[_], rfl, ?_⟩, by simp, ?_⟩
    · intro e he
      rw [List.mem_singleton] at he
      subst he; rfl
    · intro _ hok
      simp [UPackage.SavePackage, hok]
  · simp only [if_true]
    exact ⟨trivial, LogExt_refl _ st, by simp, by simp⟩

theorem SaveWithOpenDrive_eq (env : Env) (st : State) (WorldName PackagePath : String) :
    SaveWorld.SaveWithOpenDrive env st WorldName PackagePath =
      DestroyActor
        (DestroyAll
          (DestroyAll
            (SavePackage env
              (SpawnMany ActorClass.VehicleSpawnPoint
                (env.SpawnerCount
                  (SpawnMany ActorClass.RoutePlanner
                    (env.RouteCount (SpawnActor st ActorClass.OpenDriveActor none []).1.Log
                      WorldName)
                    (SpawnActor st ActorClass.OpenDriveActor none []).1).1.Log)
                (SpawnMany ActorClass.RoutePlanner
                  (env.RouteCount (SpawnActor st ActorClass.OpenDriveActor none []).1.Log
                    WorldName)
                  (SpawnActor st ActorClass.OpenDriveActor none []).1).1).1
              PackagePath).1
            (SpawnMany ActorClass.RoutePlanner
              (env.RouteCount (SpawnActor st ActorClass.OpenDriveActor none []).1.Log WorldName)
              (SpawnActor st ActorClass.OpenDriveActor none []).1).2)
          (SpawnMany ActorClass.VehicleSpawnPoint
            (env.SpawnerCount
              (SpawnMany ActorClass.RoutePlanner
                (env.RouteCount (SpawnActor st ActorClass.OpenDriveActor none []).1.Log
                  WorldName)
                (SpawnActor st ActorClass.OpenDriveActor none []).1).1.Log)
            (SpawnMany ActorClass.RoutePlanner
              (env.RouteCount (SpawnActor st ActorClass.OpenDriveActor none []).1.Log WorldName)
              (SpawnActor st ActorClass.OpenDriveActor none []).1).1).2)
        (SpawnActor st ActorClass.OpenDriveActor none []).2.Id := rfl

theorem filter_helper_out (A R P : List AActor) (h : AActor)
    (hN : ∀ x ∈ [h] ++ R ++ P, maxId A < x.Id) :
    (((A ++ ([h] ++ R ++ P)).filter (fun a => R.all (fun x => !(a.Id == x.Id)))).filter
        (fun a => P.all (fun x => !(a.Id == x.Id)))).filter (fun a => !(a.Id == h.Id)) = A := by
  rw [List.filter_filter, List.filter_filter]
  apply filter_new_out
  · intro a ha
    have h1 := maxId_ge_of_mem A a ha
    have ne : ∀ x ∈ [h] ++ R ++ P, (!(a.Id == x.Id)) = true := by
      intro x hx
      have h2 := hN x hx
      have : a.Id ≠ x.Id := by omega
      simp [this]
    have hR : R.all (fun x => !(a.Id == x.Id)) = true := by
      rw [List.all_eq_true]; intro x hx; exact ne x (by simp [hx])
    have hP : P.all (fun x => !(a.Id == x.Id)) = true := by
      rw [List.all_eq_true]; intro x hx; exact ne x (by simp [hx])
    have hh := ne h (by simp)
    rw [hR, hP, hh]; rfl
  · intro a ha
    simp only [List.mem_append, List.mem_singleton] at ha
    rcases ha with (ha | ha) | ha
    · subst ha; simp
    · have : R.all (fun x => !(a.Id == x.Id)) = false := by
        rw [List.all_eq_false]; exact ⟨a, ha, by simp⟩
      simp [this]
    · have : P.all (fun x => !(a.Id == x.Id)) = false := by
        rw [List.all_eq_false]; exact ⟨a, ha, by simp⟩
      simp [this]

theorem SaveWithOpenDrive_spec (env : Env) (st : State) (WorldName PackagePath : String) :
    (SaveWorld.SaveWithOpenDrive env st WorldName PackagePath).World.Actors =
      st.World.Actors ∧
    (SaveWorld.SaveWithOpenDrive env st WorldName PackagePath).World.RegistryPath =
      st.World.RegistryPath ∧
    LogExt Event.IsScene st (SaveWorld.SaveWithOpenDrive env st WorldName PackagePath) ∧
    (FileExists st.Files (env.LongPackageNameToFilename PackagePath env.MapPackageExtension)
        = true →
      (SaveWorld.SaveWithOpenDrive env st WorldName PackagePath).Files = st.Files ∧
      LogExt (fun e => !Event.IsEngineSave e) st
        (SaveWorld.SaveWithOpenDrive env st WorldName PackagePath)) ∧
    (FileExists st.Files (env.LongPackageNameToFilename PackagePath env.MapPackageExtension)
        = false →
      (∀ log, env.SaveSucceeds log
        (env.LongPackageNameToFilename PackagePath env.MapPackageExtension) = true) →
      FileExists (SaveWorld.SaveWithOpenDrive env st WorldName PackagePath).Files
        (env.LongPackageNameToFilename PackagePath env.MapPackageExtension) = true) := by
  rw [SaveWithOpenDrive_eq]
  obtain ⟨g1, l1, _, _⟩ := SpawnActor_Grown st ActorClass.OpenDriveActor none []
  generalize SpawnActor st ActorClass.OpenDriveActor none [] = sp at g1 l1 ⊢
  obtain ⟨g2, l2⟩ := SpawnMany_Grown ActorClass.RoutePlanner
    (env.RouteCount sp.1.Log WorldName) sp.1
  generalize SpawnMany ActorClass.RoutePlanner (env.RouteCount sp.1.Log WorldName) sp.1 = m1
    at g2 l2 ⊢
  obtain ⟨g3, l3⟩ := SpawnMany_Grown ActorClass.VehicleSpawnPoint
    (env.SpawnerCount m1.1.Log) m1.1
  generalize SpawnMany ActorClass.VehicleSpawnPoint (env.SpawnerCount m1.1.Log) m1.1 = m2
    at g3 l3 ⊢
  have G := Grown_trans (Grown_trans g1 g2) g3
  have L := LogExt_trans (LogExt_trans l1 l2) l3
  obtain ⟨w, ls, hex, hnex⟩ := SavePackage_spec env m2.1 PackagePath
  obtain ⟨a4, f4, l4, r4⟩ := DestroyAll_spec m1.2 (SavePackage env m2.1 PackagePath).1
  obtain ⟨a5, f5, l5, r5⟩ := DestroyAll_spec m2.2
    (DestroyAll (SavePackage env m2.1 PackagePath).1 m1.2)
  have lD : LogExt Event.IsInstance (SavePackage env m2.1 PackagePath).1
      (DestroyActor (DestroyAll (DestroyAll (SavePackage env m2.1 PackagePath).1 m1.2) m2.2)
        sp.2.Id) := by
    refine LogExt_trans (LogExt_trans l4 l5) ⟨[Event.DestroyActor sp.2.Id], rfl, ?_⟩
    intro e he
    rw [List.mem_singleton] at he
    subst he; rfl
  refine ⟨?_, ?_, ?_, ?_, ?_⟩
  · show List.filter _ (DestroyAll (DestroyAll (SavePackage env m2.1 PackagePath).1 m1.2)
      m2.2).World.Actors = _
    rw [a5, a4, w, G.1]
    exact filter_helper_out _ _ _ _ G.2.1
  · show (DestroyAll (DestroyAll (SavePackage env m2.1 PackagePath).1 m1.2)
      m2.2).World.RegistryPath = _
    rw [r5, r4, w]
    exact G.2.2.2
  · exact LogExt_trans (LogExt_mono IsInstance_IsScene L)
      (LogExt_trans ls (LogExt_mono IsInstance_IsScene lD))
  · intro h
    rw [← G.2.2.1] at h
    have e := hex h
    constructor
    · show (DestroyAll (DestroyAll (SavePackage env m2.1 PackagePath).1 m1.2) m2.2).Files = _
      rw [f5, f4, e, G.2.2.1]
    · rw [e] at lD
      rw [e]
      exact LogExt_mono IsInstance_not_IsEngineSave (LogExt_trans L lD)
  · intro h hok
    rw [← G.2.2.1] at h
    obtain ⟨_, hf⟩ := hnex h (hok _)
    show FileExists (DestroyAll (DestroyAll (SavePackage env m2.1 PackagePath).1 m1.2)
      m2.2).Files _ = true
    rw [f5, f4, hf]
    exact FileExists_WriteFile _ _ _

theorem LogExt_of_Log_eq_left {P : Event → Bool} {a b c : State} (h1 : LogExt P a b)
    (h2 : c.Log = a.Log) : LogExt P c b := by
  obtain ⟨e1, l1, p1⟩ := h1
  exact ⟨e1, by rw [h2, l1], p1⟩

theorem SaveWorld_eq (env : Env) (st : State) (PackageName DestPath WorldName : String) :
    SaveWorld env st PackageName DestPath WorldName =
      if FileExists st.Files (SaveWorld.PathXODR env PackageName WorldName) = true then
        (SaveWorld.SaveWithOpenDrive env (SaveWorld.Rename st DestPath WorldName) WorldName
          (DestPath ++ "/" ++ WorldName), false)
      else
        ((SavePackage env (SaveWorld.Rename st DestPath WorldName)
          (DestPath ++ "/" ++ WorldName)).1, false) := rfl

theorem SaveWorld_spec (env : Env) (st : State) (PackageName DestPath WorldName : String) :
    (SaveWorld env st PackageName DestPath WorldName).2 = false ∧
    (SaveWorld env st PackageName DestPath WorldName).1.World.Actors = st.World.Actors ∧
    (SaveWorld env st PackageName DestPath WorldName).1.World.RegistryPath =
      DestPath ++ "/" ++ WorldName ∧
    LogExt Event.IsScene st (SaveWorld env st PackageName DestPath WorldName).1 ∧
    (FileExists st.Files
        (env.LongPackageNameToFilename (DestPath ++ "/" ++ WorldName) env.MapPackageExtension)
        = true →
      (SaveWorld env st PackageName DestPath WorldName).1.Files = st.Files ∧
      LogExt (fun e => !Event.IsEngineSave e) st
        (SaveWorld env st PackageName DestPath WorldName).1) ∧
    (FileExists st.Files
        (env.LongPackageNameToFilename (DestPath ++ "/" ++ WorldName) env.MapPackageExtension)
        = false →
      (∀ log, env.SaveSucceeds log
        (env.LongPackageNameToFilename (DestPath ++ "/" ++ WorldName) env.MapPackageExtension)
          = true) →
      FileExists (SaveWorld env st PackageName DestPath WorldName).1.Files
        (env.LongPackageNameToFilename (DestPath ++ "/" ++ WorldName) env.MapPackageExtension)
          = true) := by
  rw [SaveWorld_eq]
  have hF : (SaveWorld.Rename st DestPath WorldName).Files = st.Files := rfl
  have hL : (SaveWorld.Rename st DestPath WorldName).Log = st.Log := rfl
  have hA : (SaveWorld.Rename st DestPath WorldName).World.Actors = st.World.Actors := rfl
  have hR : (SaveWorld.Rename st DestPath WorldName).World.RegistryPath =
      DestPath ++ "/" ++ WorldName := rfl
  cases hx : FileExists st.Files (SaveWorld.PathXODR env PackageName WorldName)
  · simp only [Bool.false_eq_true, if_false]
    obtain ⟨w, ls, hex, hnex⟩ := SavePackage_spec env (SaveWorld.Rename st DestPath WorldName)
      (DestPath ++ "/" ++ WorldName)
    refine ⟨trivial, by rw [w, hA], by rw [w, hR], LogExt_of_Log_eq_left ls hL, ?_, ?_⟩
    · intro h
      rw [← hF] at h
      rw [hex h]
      exact ⟨hF, LogExt_of_Log_eq_left (LogExt_refl _ _) hL⟩
    · intro h hok
      rw [← hF] at h
      rw [(hnex h (hok _)).2]
      exact FileExists_WriteFile _ _ _
  · simp only [if_true]
    obtain ⟨a, r, l, hex, hnex⟩ := SaveWithOpenDrive_spec env
      (SaveWorld.Rename st DestPath WorldName) WorldName (DestPath ++ "/" ++ WorldName)
    refine ⟨trivial, by rw [a, hA], by rw [r, hR], LogExt_of_Log_eq_left l hL, ?_, ?_⟩
    · intro h
      rw [← hF] at h
      exact ⟨(hex h).1.trans hF, LogExt_of_Log_eq_left (hex h).2 hL⟩
    · intro h hok
      rw [← hF] at h
      exact hnex h hok

/-! ## C3: the text of `MapPaths.txt` -/

/-- C3: the code breaks the claim when no props are declared.  For the manifest with
maps `/Game/A`/`M1` and `/Game/B`/`M2` and the empty props-map path,
`GenerateMapPathsFile` builds the text `/Game/A/M1+/Game/B/M2+`, with a trailing
`+`, and that is the text then found in `MapPaths.txt` whenever the output directory
can be created; the claim has `/Game/A/M1+/Game/B/M2`. -/
theorem C3_map_paths_text_keeps_trailing_plus (env : Env) (st : State) (b1 b2 : Bool) :
    GenerateMapPathsFile.MapPathData env.SearchCase
        ⟨[⟨"M1", "/Game/A", b1⟩, ⟨"M2", "/Game/B", b2⟩], []⟩ "" =
      "/Game/A/M1+/Game/B/M2+" ∧
    LoadFileToString
        (GenerateMapPathsFile env st ⟨[⟨"M1", "/Game/A", b1⟩, ⟨"M2", "/Game/B", b2⟩], []⟩ "").Files
        (env.ProjectContentDir ++ "/" ++ "MapPaths.txt") =
      (if env.CreateDirectoryTree st.Log env.ProjectContentDir = true
        then some "/Game/A/M1+/Game/B/M2+"
        else LoadFileToString st.Files (env.ProjectContentDir ++ "/" ++ "MapPaths.txt")) ∧
    "/Game/A/M1+/Game/B/M2+" ≠ "/Game/A/M1+/Game/B/M2" := by
  have h1 : GenerateMapPathsFile.MapPathData env.SearchCase
      ⟨[⟨"M1", "/Game/A", b1⟩, ⟨"M2", "/Game/B", b2⟩], []⟩ "" = "/Game/A/M1+/Game/B/M2+" := by
    rfl
  refine ⟨h1, ?_, by decide⟩
  unfold GenerateMapPathsFile
  simp only [h1]
  unfold SaveStringTextToFile
  cases hc : env.CreateDirectoryTree st.Log env.ProjectContentDir
  · simp
  · simp [SaveStringToFile, LoadFileToString_WriteFile]

/-! ## C4: the result of `SaveWorld` -/

/-- C4: the code breaks the claim.  `SaveWorld` returns false on every input: the
result of `SavePackage` is dropped and the variable `bPackageSaved`, set to false,
is returned.  So it is on the input where no file stands at the destination, the
engine's save succeeds and no descriptor exists: the package
`/Game/Pkg/Maps/Town.umap` is written and the result is false. -/
theorem C4_SaveWorld_returns_false (env : Env) (st : State)
    (PackageName DestPath WorldName : String) :
    (SaveWorld env st PackageName DestPath WorldName).2 = false ∧
    FileExists Example.Start.Files "/Game/Pkg/Maps/Town.umap" = false ∧
    FileExists (SaveWorld (Example.Engine ESearchCase.IgnoreCase []) Example.Start
      "Pkg" "/Game/Pkg/Maps" "Town").1.Files "/Game/Pkg/Maps/Town.umap" = true ∧
    (SaveWorld (Example.Engine ESearchCase.IgnoreCase []) Example.Start
      "Pkg" "/Game/Pkg/Maps" "Town").2 = false :=
  ⟨(SaveWorld_spec env st PackageName DestPath WorldName).1, by decide, by decide, by decide⟩

/-! ## C5: saving to a destination that holds a file -/

/-- C5: for every engine, state, package name, destination path and map name such
that a file stands at the file name computed from `DestPath/WorldName`:
`SavePackage` returns false and leaves the state as it is (the engine's save is
not called); `SaveWorld` returns false, keeps every file and issues no call of the
engine's save, whether the descriptor exists or not.  Hence, from any state without
a file at the destination and an engine whose save of that file succeeds, a first
`SaveWorld` leaves a file there and a second one returns false and keeps the
files of the first. -/
theorem C5_save_to_existing_is_noop (env : Env) (PackageName DestPath WorldName : String)
    (st st0 : State)
    (hexists : FileExists st.Files
      (env.LongPackageNameToFilename (DestPath ++ "/" ++ WorldName) env.MapPackageExtension)
        = true)
    (hfree : FileExists st0.Files
      (env.LongPackageNameToFilename (DestPath ++ "/" ++ WorldName) env.MapPackageExtension)
        = false)
    (hok : ∀ log, env.SaveSucceeds log
      (env.LongPackageNameToFilename (DestPath ++ "/" ++ WorldName) env.MapPackageExtension)
        = true) :
    (SavePackage env st (DestPath ++ "/" ++ WorldName) = (st, false) ∧
      (SaveWorld env st PackageName DestPath WorldName).2 = false ∧
      (SaveWorld env st PackageName DestPath WorldName).1.Files = st.Files ∧
      LogExt (fun e => !Event.IsEngineSave e) st
        (SaveWorld env st PackageName DestPath WorldName).1) ∧
    (FileExists (SaveWorld env st0 PackageName DestPath WorldName).1.Files
        (env.LongPackageNameToFilename (DestPath ++ "/" ++ WorldName) env.MapPackageExtension)
          = true ∧
      (SaveWorld env (SaveWorld env st0 PackageName DestPath WorldName).1
        PackageName DestPath WorldName).2 = false ∧
      (SaveWorld env (SaveWorld env st0 PackageName DestPath WorldName).1
        PackageName DestPath WorldName).1.Files =
          (SaveWorld env st0 PackageName DestPath WorldName).1.Files) := by
  constructor
  · obtain ⟨r, _, _, _, hex, _⟩ := SaveWorld_spec env st PackageName DestPath WorldName
    exact ⟨(SavePackage_spec env st (DestPath ++ "/" ++ WorldName)).2.2.1 hexists, r,
      (hex hexists).1, (hex hexists).2⟩
  · obtain ⟨_, _, _, _, _, hnex⟩ := SaveWorld_spec env st0 PackageName DestPath WorldName
    have h1 := hnex hfree hok
    obtain ⟨r, _, _, _, hex, _⟩ := SaveWorld_spec env
      (SaveWorld env st0 PackageName DestPath WorldName).1 PackageName DestPath WorldName
    exact ⟨h1, r, (hex h1).1⟩

/-- C5 at a concrete input: with the package `/Game/Pkg/Maps/Town.umap` and the
descriptor of `Town` on disk, `SaveWorld` returns false and keeps the files; from
the empty disk the first save leaves the package and the second keeps it. -/
theorem C5_save_to_existing_is_noop_witness :
    FileExists Example.SavedState.Files "/Game/Pkg/Maps/Town.umap" = true ∧
    FileExists Example.Start.Files "/Game/Pkg/Maps/Town.umap" = false ∧
    (SaveWorld (Example.Engine ESearchCase.IgnoreCase []) Example.SavedState
      "Pkg" "/Game/Pkg/Maps" "Town").2 = false ∧
    (SaveWorld (Example.Engine ESearchCase.IgnoreCase []) Example.SavedState
      "Pkg" "/Game/Pkg/Maps" "Town").1.Files = Example.SavedState.Files ∧
    (SaveWorld (Example.Engine ESearchCase.IgnoreCase [])
      (SaveWorld (Example.Engine ESearchCase.IgnoreCase []) Example.Start
        "Pkg" "/Game/Pkg/Maps" "Town").1 "Pkg" "/Game/Pkg/Maps" "Town").2 = false :=
  ⟨by decide, by decide,
    (C5_save_to_existing_is_noop (Example.Engine ESearchCase.IgnoreCase []) "Pkg" "/Game/Pkg/Maps"
      "Town" Example.SavedState Example.Start (by decide) (by decide) (fun _ => rfl)).1.2.1,
    (C5_save_to_existing_is_noop (Example.Engine ESearchCase.IgnoreCase []) "Pkg" "/Game/Pkg/Maps"
      "Town" Example.SavedState Example.Start (by decide) (by decide) (fun _ => rfl)).1.2.2.1,
    (C5_save_to_existing_is_noop (Example.Engine ESearchCase.IgnoreCase []) "Pkg" "/Game/Pkg/Maps"
      "Town" Example.SavedState Example.Start (by decide) (by decide) (fun _ => rfl)).2.2.1⟩

/-! ## C8: the scene between two maps -/

theorem DestroySpawnedActorsInWorld_spec (st : State) (X : List AActor) :
    (DestroySpawnedActorsInWorld st X).World.Actors =
      st.World.Actors.filter (fun a => X.all (fun x => !(a.Id == x.Id))) ∧
    (DestroySpawnedActorsInWorld st X).Files = st.Files ∧
    LogExt Event.IsScene st (DestroySpawnedActorsInWorld st X) ∧
    (DestroySpawnedActorsInWorld st X).World.RegistryPath = st.World.RegistryPath := by
  obtain ⟨a, f, l, r⟩ := DestroyAll_spec X st
  exact ⟨a, f, LogExt_of_Log_eq (LogExt_mono IsInstance_IsScene l) rfl, r⟩

theorem Iteration_spec (env : Env) (PackageName : String) (st : State) (Map : FMapData) :
    (PrepareMapsForCooking.Iteration env PackageName st Map).World.Actors = st.World.Actors ∧
    LogExt Event.IsScene st (PrepareMapsForCooking.Iteration env PackageName st Map) := by
  unfold PrepareMapsForCooking.Iteration
  simp only []
  generalize ["/Game/" ++ PackageName ++ "/Static/" ++ SSTags.OTHER ++ ("/" ++ Map.Name),
    "/Game/" ++ PackageName ++ "/Static/" ++ SSTags.ROAD ++ ("/" ++ Map.Name),
    "/Game/" ++ PackageName ++ "/Static/" ++ SSTags.ROADLINES ++ ("/" ++ Map.Name),
    "/Game/" ++ PackageName ++ "/Static/" ++ SSTags.VEGETATION ++ ("/" ++ Map.Name)] = DataPath
  obtain ⟨g, l1, _, _⟩ := SpawnMeshesToWorld_spec env st DataPath Map.bUseCarlaMapMaterials
  generalize SpawnMeshesToWorld env st DataPath Map.bUseCarlaMapMaterials = sp at g l1 ⊢
  obtain ⟨_, a2, _, l2, _, _⟩ := SaveWorld_spec env sp.1 PackageName Map.Path Map.Name
  obtain ⟨a3, _, l3, _⟩ := DestroySpawnedActorsInWorld_spec
    (SaveWorld env sp.1 PackageName Map.Path Map.Name).1 sp.2
  constructor
  · rw [a3, a2, g.1]
    exact filter_destroy_new _ _ g.2.1
  · exact LogExt_trans (LogExt_trans (LogExt_mono IsInstance_IsScene l1) l2) l3

theorem Iteration_foldl (env : Env) (PackageName : String) (maps : List FMapData) :
    ∀ st : State,
    (maps.foldl (PrepareMapsForCooking.Iteration env PackageName) st).World.Actors =
      st.World.Actors ∧
    LogExt Event.IsScene st (maps.foldl (PrepareMapsForCooking.Iteration env PackageName) st) := by
  induction maps with
  | nil => intro st; exact ⟨rfl, LogExt_refl _ st⟩
  | cons m ms ih =>
    intro st
    obtain ⟨a1, l1⟩ := Iteration_spec env PackageName st m
    obtain ⟨a2, l2⟩ := ih (PrepareMapsForCooking.Iteration env PackageName st m)
    exact ⟨a2.trans a1, LogExt_trans l1 l2⟩

/-- C8: for every engine, state, package name and list of maps `Before ++ Map :: After`,
when the base scene `World` is found, `PrepareMapsForCooking` returns, and the
state in which the assembly of `Map` begins (the one reached after the passes for
`Before`) has exactly the instances of `World`.  In the pass for `Map` the scene
after `SaveWorld` has the instances it had before that call (the helper and what
it generated are gone), and after `DestroySpawnedActorsInWorld` the instances it
had before `SpawnMeshesToWorld`. -/
theorem C8_cleanup_between_maps (env : Env) (st st1 : State) (World : UWorld)
    (PackageName : String) (Before : List FMapData) (Map : FMapData) (After : List FMapData)
    (hload : LoadWorld env st = (st1, some World)) :
    PrepareMapsForCooking env st PackageName (Before ++ Map :: After) =
      some (After.foldl (PrepareMapsForCooking.Iteration env PackageName)
        (PrepareMapsForCooking.Iteration env PackageName
          (Before.foldl (PrepareMapsForCooking.Iteration env PackageName)
            { st1 with World := World }) Map)) ∧
    (Before.foldl (PrepareMapsForCooking.Iteration env PackageName)
      { st1 with World := World }).World.Actors = World.Actors ∧
    (∀ (s : State) (Name Path : String),
      (SaveWorld env s PackageName Path Name).1.World.Actors = s.World.Actors) ∧
    (PrepareMapsForCooking.Iteration env PackageName
      (Before.foldl (PrepareMapsForCooking.Iteration env PackageName)
        { st1 with World := World }) Map).World.Actors = World.Actors := by
  have hB := (Iteration_foldl env PackageName Before { st1 with World := World }).1
  refine ⟨?_, hB, ?_, ?_⟩
  · unfold PrepareMapsForCooking
    rw [hload]
    simp only [List.foldl_append, List.foldl_cons]
  · intro s Name Path
    exact (SaveWorld_spec env s PackageName Path Name).2.1
  · rw [(Iteration_spec env PackageName _ Map).1, hB]

/-- C8 at a concrete input: maps `Town` (whose descriptor is on disk, so that the
helper is spawned) and `B`; the engine finds one mesh under every folder and a base
scene with one instance.  When the assembly of `B` begins the scene has the
instances of the base scene. -/
theorem C8_cleanup_between_maps_witness :
    LoadWorld (Example.Engine ESearchCase.IgnoreCase [⟨"Road_01", "/Game/Pkg/Static/Roads/A/Road_01"⟩])
        Example.SavedState =
      ({ Example.SavedState with Log := [Event.LoadWorld "/Game/Carla/Maps/BaseMap"] },
        some Example.BaseWorld) ∧
    ([(⟨"Town", "/Game/Pkg/Maps", true⟩ : FMapData)].foldl
      (PrepareMapsForCooking.Iteration
        (Example.Engine ESearchCase.IgnoreCase [⟨"Road_01", "/Game/Pkg/Static/Roads/A/Road_01"⟩])
        "Pkg")
      { ({ Example.SavedState with Log := [Event.LoadWorld "/Game/Carla/Maps/BaseMap"] } : State)
        with World := Example.BaseWorld }).World.Actors = Example.BaseWorld.Actors :=
  ⟨rfl,
    (C8_cleanup_between_maps
      (Example.Engine ESearchCase.IgnoreCase [⟨"Road_01", "/Game/Pkg/Static/Roads/A/Road_01"⟩])
      Example.SavedState
      { Example.SavedState with Log := [Event.LoadWorld "/Game/Carla/Maps/BaseMap"] }
      Example.BaseWorld "Pkg" [⟨"Town", "/Game/Pkg/Maps", true⟩] ⟨"B", "/Game/Pkg/Maps", false⟩ []
      rfl).2.1⟩

/-! ## Modes: lemmas -/

theorem RelocationMoves_spec (env : Env) (Log : List Event) (PackageName MapName : String) :
    (∀ e ∈ RelocationMoves env Log PackageName MapName, Event.IsMove e = true) ∧
    (RelocationMoves env Log PackageName MapName).filterMap Event.MoveDest =
      RelocationDestinations PackageName MapName := by
  unfold RelocationMoves
  rw [AssetDataMap_eq]
  constructor
  · intro e he
    simp only [List.map_cons, List.map_nil, List.mem_cons, List.mem_nil_iff, or_false] at he
    rcases he with h | h | h | h <;> subst h <;> rfl
  · rfl

theorem MoveMeshes_spec (env : Env) (PackageName : String) (maps : List FMapData) :
    ∀ st : State, ∃ evs : List Event,
      (MoveMeshes env st PackageName maps).Log = st.Log ++ evs ∧
      (∀ e ∈ evs, Event.IsMove e = true) ∧
      evs.filterMap Event.MoveDest =
        maps.flatMap (fun Map => RelocationDestinations PackageName Map.Name) ∧
      (MoveMeshes env st PackageName maps).World = st.World ∧
      (MoveMeshes env st PackageName maps).Files = st.Files := by
  induction maps with
  | nil => intro st; exact ⟨[], by simp [MoveMeshes], by simp, rfl, rfl, rfl⟩
  | cons m ms ih =>
    intro st
    obtain ⟨l1, w1, f1⟩ := MoveMeshesForSemanticSegmentation_effect env st PackageName m.Name
    obtain ⟨p1, d1⟩ := RelocationMoves_spec env st.Log PackageName m.Name
    obtain ⟨evs, l2, p2, d2, w2, f2⟩ :=
      ih (MoveMeshesForSemanticSegmentation env st PackageName m.Name)
    refine ⟨RelocationMoves env st.Log PackageName m.Name ++ evs, ?_, ?_, ?_, ?_, ?_⟩
    · show (MoveMeshes env (MoveMeshesForSemanticSegmentation env st PackageName m.Name)
        PackageName ms).Log = _
      rw [l2, l1, List.append_assoc]
    · intro e he
      rcases List.mem_append.1 he with h | h
      · exact p1 e h
      · exact p2 e h
    · rw [List.filterMap_append, d1, d2, List.flatMap_cons]
    · show (MoveMeshes env (MoveMeshesForSemanticSegmentation env st PackageName m.Name)
        PackageName ms).World = _
      rw [w2, w1]
    · show (MoveMeshes env (MoveMeshesForSemanticSegmentation env st PackageName m.Name)
        PackageName ms).Files = _
      rw [f2, f1]

theorem LoadWorld_spec (env : Env) (st : State) :
    LogExt Event.IsScene st (LoadWorld env st).1 ∧
    (LoadWorld env st).1.Files = st.Files ∧ (LoadWorld env st).1.World = st.World := by
  unfold LoadWorld
  simp only []
  split <;> exact ⟨⟨[_], rfl, by intro e he; rw [List.mem_singleton] at he; subst he; rfl⟩,
    rfl, rfl⟩

theorem PrepareMapsForCooking_spec (env : Env) (st s : State) (PackageName : String)
    (maps : List FMapData) (h : PrepareMapsForCooking env st PackageName maps = some s) :
    LogExt Event.IsScene st s := by
  unfold PrepareMapsForCooking at h
  obtain ⟨l0, _, _⟩ := LoadWorld_spec env st
  generalize LoadWorld env st = r at h l0
  obtain ⟨st1, W⟩ := r
  cases W with
  | none => simp at h
  | some World =>
    simp only [Option.some.injEq] at h
    subst h
    exact LogExt_trans l0
      (LogExt_of_Log_eq_left (Iteration_foldl env PackageName maps { st1 with World := World }).2
        rfl)

theorem PreparePropsForCooking_spec (env : Env) (st : State) (PackageName : String)
    (props : List String) (MapDestPath : String) :
    (PreparePropsForCooking env st PackageName props MapDestPath).isSome =
      (LoadWorld env st).2.isSome ∧
    ∀ s, PreparePropsForCooking env st PackageName props MapDestPath = some s →
      LogExt Event.IsScene st s ∧
      s.World.RegistryPath = MapDestPath ++ "/" ++ "PropsMap" := by
  unfold PreparePropsForCooking
  obtain ⟨l0, _, _⟩ := LoadWorld_spec env st
  generalize LoadWorld env st = r at l0 ⊢
  obtain ⟨st1, W⟩ := r
  cases W with
  | none => simp
  | some World =>
    refine ⟨rfl, ?_⟩
    intro s h
    simp only [Option.some.injEq] at h
    subst h
    generalize props.map (fun PropPath =>
      FString.SplitLeftFromEnd ESearchCase.IgnoreCase PropPath "/") = dirs
    obtain ⟨_, l1, _, _⟩ := SpawnMeshesToWorld_spec env { st1 with World := World } dirs false
    generalize SpawnMeshesToWorld env { st1 with World := World } dirs false = sp at l1 ⊢
    obtain ⟨_, _, r2, l2, _, _⟩ := SaveWorld_spec env sp.1 PackageName MapDestPath "PropsMap"
    obtain ⟨_, _, l3, r3⟩ := DestroySpawnedActorsInWorld_spec
      (SaveWorld env sp.1 PackageName MapDestPath "PropsMap").1 sp.2
    constructor
    · exact LogExt_trans l0 (LogExt_of_Log_eq_left
        (LogExt_trans (LogExt_trans (LogExt_mono IsInstance_IsScene l1) l2) l3) rfl)
    · rw [r3, r2]

theorem SaveStringTextToFile_spec (env : Env) (st : State) (dir file text : String) :
    (SaveStringTextToFile env st dir file text true).1.World = st.World ∧
    LogExt Event.IsWrite st (SaveStringTextToFile env st dir file text true).1 ∧
    (env.CreateDirectoryTree st.Log dir = true →
      (SaveStringTextToFile env st dir file text true).1.Files =
        WriteFile st.Files (dir ++ "/" ++ file) text ∧
      (SaveStringTextToFile env st dir file text true).1.Log =
        st.Log ++ [Event.SaveStringToFile (dir ++ "/" ++ file) text]) := by
  unfold SaveStringTextToFile
  cases hc : env.CreateDirectoryTree st.Log dir
  · simp only [Bool.false_eq_true, if_false]
    exact ⟨trivial, LogExt_refl _ st, by simp⟩
  · simp only [if_true, Bool.true_or]
    refine ⟨rfl, ⟨[_], rfl, ?_⟩, fun _ => ⟨rfl, rfl⟩⟩
    intro e he
    rw [List.mem_singleton] at he
    subst he; rfl

theorem IsScene_not_IsMove (e : Event) (h : Event.IsScene e = true) :
    (!Event.IsMove e) = true := by
  cases e <;> simp_all [Event.IsScene, Event.IsMove]

theorem IsWrite_not_IsMove (e : Event) (h : Event.IsWrite e = true) :
    (!Event.IsMove e) = true := by
  cases e <;> simp_all [Event.IsWrite, Event.IsMove]

theorem GenerateMapPathsFile_spec (env : Env) (st : State) (A : FAssetsPaths)
    (PropsMapPath : String) :
    (GenerateMapPathsFile env st A PropsMapPath).World = st.World ∧
    LogExt Event.IsWrite st (GenerateMapPathsFile env st A PropsMapPath) := by
  obtain ⟨w, l, _⟩ := SaveStringTextToFile_spec env st env.ProjectContentDir "MapPaths.txt"
    (GenerateMapPathsFile.MapPathData env.SearchCase A PropsMapPath)
  exact ⟨w, l⟩

theorem GeneratePackagePathFile_spec (env : Env) (st : State) (PackageName : String) :
    (GeneratePackagePathFile env st PackageName).World = st.World ∧
    LogExt Event.IsWrite st (GeneratePackagePathFile env st PackageName) := by
  obtain ⟨w, l, _⟩ := SaveStringTextToFile_spec env st env.ProjectContentDir "PackagePath.txt"
    (GetFirstPackagePath env st PackageName)
  exact ⟨w, l⟩

theorem String_append_left_cancel (a b c : String) (h : a ++ b = a ++ c) : b = c := by
  have h2 := congrArg String.data h
  rw [String.data_append, String.data_append] at h2
  exact String.ext (List.append_cancel_left h2)

theorem path_files_differ (dir : String) :
    dir ++ "/" ++ "PackagePath.txt" ≠ dir ++ "/" ++ "MapPaths.txt" := by
  intro h
  have := String_append_left_cancel _ _ _ h
  revert this
  decide

theorem Dispatch_full_without_props (env : Env) (st : State) (P : FPackageParams) (A : FAssetsPaths)
    (hm : P.bOnlyMoveMeshes = false) (hp : P.bOnlyPrepareMaps = false) :
    A.PropsPaths = [] →
      Main.Dispatch env st P A =
        some (GeneratePackagePathFile env (GenerateMapPathsFile env st A "") P.Name, 0) := by
  intro h
  simp [Main.Dispatch, hm, hp, h]

theorem Dispatch_full_with_props (env : Env) (st : State) (P : FPackageParams) (A : FAssetsPaths)
    (hm : P.bOnlyMoveMeshes = false) (hp : P.bOnlyPrepareMaps = false) :
    A.PropsPaths ≠ [] →
      Main.Dispatch env st P A =
        (PreparePropsForCooking env st P.Name A.PropsPaths "PropsMap").map (fun s =>
          (GeneratePackagePathFile env
            (GenerateMapPathsFile env s A ("/Game/" ++ P.Name ++ "/Maps/" ++ "PropsMap"))
            P.Name, 0)) := by
  intro h
  have hl : A.PropsPaths.length > 0 := List.length_pos.2 h
  simp [Main.Dispatch, hm, hp, hl, Option.map_map, Function.comp_def]

/-! ## C6: the mode dispatch of `Main` -/

/-- C6: for every engine, state, parameters and manifest content.  With
`bOnlyMoveMeshes` set (whatever `bOnlyPrepareMaps`), `Main` returns 0 after the
relocation alone: the scene and the files are untouched and the calls issued are
moves only, to the four folders of each declared map, in manifest order.  With
`bOnlyMoveMeshes` unset and `bOnlyPrepareMaps` set, `Main` is the per-map prepare
alone, whose calls load, spawn, destroy and save, and neither move an asset nor
write a text file.  With both unset, `Main` is the full prepare: the props map when
props are declared, then the two path files; no asset is moved. -/
theorem C6_mode_dispatch (env : Env) (st : State) (P : FPackageParams) (A : FAssetsPaths) :
    (P.bOnlyMoveMeshes = true →
      Main.Dispatch env st P A = some (MoveMeshes env st P.Name A.MapsPaths, 0) ∧
      (MoveMeshes env st P.Name A.MapsPaths).World = st.World ∧
      (MoveMeshes env st P.Name A.MapsPaths).Files = st.Files ∧
      ∃ evs : List Event,
        (MoveMeshes env st P.Name A.MapsPaths).Log = st.Log ++ evs ∧
        (∀ e ∈ evs, Event.IsMove e = true) ∧
        evs.filterMap Event.MoveDest =
          A.MapsPaths.flatMap (fun Map =>
            [SSTags.OTHER, SSTags.ROAD, SSTags.ROADLINES, SSTags.VEGETATION].map
              (fun Folder => "/Game/" ++ P.Name ++ "/Static/" ++ Folder ++ "/" ++ Map.Name))) ∧
    (P.bOnlyMoveMeshes = false → P.bOnlyPrepareMaps = true →
      Main.Dispatch env st P A =
        (PrepareMapsForCooking env st P.Name A.MapsPaths).map (fun s => (s, 0)) ∧
      ∀ r, Main.Dispatch env st P A = some r → LogExt Event.IsScene st r.1 ∧ r.2 = 0) ∧
    (P.bOnlyMoveMeshes = false → P.bOnlyPrepareMaps = false →
      (A.PropsPaths = [] →
        Main.Dispatch env st P A =
          some (GeneratePackagePathFile env (GenerateMapPathsFile env st A "") P.Name, 0)) ∧
      (A.PropsPaths ≠ [] →
        Main.Dispatch env st P A =
          (PreparePropsForCooking env st P.Name A.PropsPaths "PropsMap").map (fun s =>
            (GeneratePackagePathFile env
              (GenerateMapPathsFile env s A ("/Game/" ++ P.Name ++ "/Maps/" ++ "PropsMap"))
              P.Name, 0))) ∧
      ∀ r, Main.Dispatch env st P A = some r →
        LogExt (fun e => !Event.IsMove e) st r.1 ∧ r.2 = 0) := by
  refine ⟨?_, ?_, ?_⟩
  · intro hm
    obtain ⟨evs, l, p, d, w, f⟩ := MoveMeshes_spec env P.Name A.MapsPaths st
    exact ⟨by simp [Main.Dispatch, hm], w, f, evs, l, p, d⟩
  · intro hm hp
    have e : Main.Dispatch env st P A =
        (PrepareMapsForCooking env st P.Name A.MapsPaths).map (fun s => (s, 0)) := by
      simp [Main.Dispatch, hm, hp]
    refine ⟨e, ?_⟩
    intro r hr
    rw [e] at hr
    cases hq : PrepareMapsForCooking env st P.Name A.MapsPaths with
    | none => rw [hq] at hr; simp at hr
    | some s =>
      rw [hq] at hr
      simp only [Option.map_some', Option.some.injEq] at hr
      subst hr
      exact ⟨PrepareMapsForCooking_spec env st s P.Name A.MapsPaths hq, rfl⟩
  · intro hm hp
    have e1 : A.PropsPaths = [] →
        Main.Dispatch env st P A =
          some (GeneratePackagePathFile env (GenerateMapPathsFile env st A "") P.Name, 0) := by
      intro h
      simp [Main.Dispatch, hm, hp, h]
    have e2 : A.PropsPaths ≠ [] →
        Main.Dispatch env st P A =
          (PreparePropsForCooking env st P.Name A.PropsPaths "PropsMap").map (fun s =>
            (GeneratePackagePathFile env
              (GenerateMapPathsFile env s A ("/Game/" ++ P.Name ++ "/Maps/" ++ "PropsMap"))
              P.Name, 0)) := by
      intro h
      have hl : A.PropsPaths.length > 0 := List.length_pos.2 h
      simp [Main.Dispatch, hm, hp, hl, Option.map_map, Function.comp_def]
    refine ⟨e1, e2, ?_⟩
    intro r hr
    by_cases h : A.PropsPaths = []
    · rw [e1 h] at hr
      simp only [Option.some.injEq] at hr
      subst hr
      exact ⟨LogExt_mono IsWrite_not_IsMove
        (LogExt_trans (GenerateMapPathsFile_spec env st A "").2
          (GeneratePackagePathFile_spec env _ P.Name).2), rfl⟩
    · rw [e2 h] at hr
      cases hq : PreparePropsForCooking env st P.Name A.PropsPaths "PropsMap" with
      | none => rw [hq] at hr; simp at hr
      | some s =>
        rw [hq] at hr
        simp only [Option.map_some', Option.some.injEq] at hr
        subst hr
        have l1 := ((PreparePropsForCooking_spec env st P.Name A.PropsPaths "PropsMap").2 s hq).1
        exact ⟨LogExt_trans (LogExt_mono IsScene_not_IsMove l1)
          (LogExt_mono IsWrite_not_IsMove
            (LogExt_trans (GenerateMapPathsFile_spec env s A _).2
              (GeneratePackagePathFile_spec env _ P.Name).2)), rfl⟩

/-- C6 at concrete inputs: both flags set gives the relocation alone; the second flag
alone gives the per-map prepare; no flag and no props gives the two path files. -/
theorem C6_mode_dispatch_witness :
    Main.Dispatch (Example.Engine ESearchCase.IgnoreCase []) Example.Start ⟨"Pkg", true, true⟩
        ⟨[⟨"A", "/Game/Pkg/Maps", true⟩], ["/Game/Pkg/Static/Props/Chair"]⟩ =
      some (MoveMeshes (Example.Engine ESearchCase.IgnoreCase []) Example.Start "Pkg"
        [⟨"A", "/Game/Pkg/Maps", true⟩], 0) ∧
    Main.Dispatch (Example.Engine ESearchCase.IgnoreCase []) Example.Start ⟨"Pkg", true, false⟩
        ⟨[⟨"A", "/Game/Pkg/Maps", true⟩], ["/Game/Pkg/Static/Props/Chair"]⟩ =
      (PrepareMapsForCooking (Example.Engine ESearchCase.IgnoreCase []) Example.Start "Pkg"
        [⟨"A", "/Game/Pkg/Maps", true⟩]).map (fun s => (s, 0)) ∧
    Main.Dispatch (Example.Engine ESearchCase.IgnoreCase []) Example.Start ⟨"Pkg", false, false⟩
        ⟨[⟨"A", "/Game/Pkg/Maps", true⟩], []⟩ =
      some (GeneratePackagePathFile (Example.Engine ESearchCase.IgnoreCase [])
        (GenerateMapPathsFile (Example.Engine ESearchCase.IgnoreCase []) Example.Start
          ⟨[⟨"A", "/Game/Pkg/Maps", true⟩], []⟩ "") "Pkg", 0) :=
  ⟨((C6_mode_dispatch (Example.Engine ESearchCase.IgnoreCase []) Example.Start
      ⟨"Pkg", true, true⟩
      ⟨[⟨"A", "/Game/Pkg/Maps", true⟩], ["/Game/Pkg/Static/Props/Chair"]⟩).1 rfl).1,
   ((C6_mode_dispatch (Example.Engine ESearchCase.IgnoreCase []) Example.Start
      ⟨"Pkg", true, false⟩
      ⟨[⟨"A", "/Game/Pkg/Maps", true⟩], ["/Game/Pkg/Static/Props/Chair"]⟩).2.1 rfl rfl).1,
   ((C6_mode_dispatch (Example.Engine ESearchCase.IgnoreCase []) Example.Start
      ⟨"Pkg", false, false⟩ ⟨[⟨"A", "/Game/Pkg/Maps", true⟩], []⟩).2.2 rfl rfl).1 rfl⟩

/-! ## C9: full prepare on an empty manifest -/

theorem GetAssetsPathFromPackage_empty (env : Env) (st : State) (PackageName : String)
    (h : LoadFileToString st.Files (GetFirstPackagePath env st PackageName) = none ∨
      (∃ txt, LoadFileToString st.Files (GetFirstPackagePath env st PackageName) = some txt ∧
        env.Deserialize txt = none) ∨
      GetAssetsPathFromPackage env st PackageName = ⟨[], []⟩) :
    GetAssetsPathFromPackage env st PackageName = ⟨[], []⟩ := by
  rcases h with h | ⟨txt, h1, h2⟩ | h
  · unfold GetAssetsPathFromPackage
    simp only [h]
  · unfold GetAssetsPathFromPackage
    simp only [h1, h2]
  · exact h

/-- C9: for every engine, state and parameters with both flags unset, when the
manifest is missing (its file cannot be loaded), malformed (its text cannot be
decoded) or declares no map and no prop, and the output directory can be created,
`Main` returns 0; the scene is the one it started with and the only calls issued
are the two writes; `MapPaths.txt` holds the empty text, `PackagePath.txt` holds
the result of the manifest path lookup, and every other file is as it was. -/
theorem C9_full_prepare_empty_manifest (env : Env) (st : State) (P : FPackageParams)
    (hmove : P.bOnlyMoveMeshes = false) (hmaps : P.bOnlyPrepareMaps = false)
    (hempty : LoadFileToString st.Files (GetFirstPackagePath env st P.Name) = none ∨
      (∃ txt, LoadFileToString st.Files (GetFirstPackagePath env st P.Name) = some txt ∧
        env.Deserialize txt = none) ∨
      GetAssetsPathFromPackage env st P.Name = ⟨[], []⟩)
    (hdir : ∀ log, env.CreateDirectoryTree log env.ProjectContentDir = true) :
    ∃ s : State,
      Main env st P = some (s, 0) ∧
      s.World = st.World ∧
      s.Log = st.Log ++
        [Event.SaveStringToFile (env.ProjectContentDir ++ "/" ++ "MapPaths.txt") "",
         Event.SaveStringToFile (env.ProjectContentDir ++ "/" ++ "PackagePath.txt")
          (GetFirstPackagePath env (GenerateMapPathsFile env st ⟨[], []⟩ "") P.Name)] ∧
      LoadFileToString s.Files (env.ProjectContentDir ++ "/" ++ "MapPaths.txt") = some "" ∧
      LoadFileToString s.Files (env.ProjectContentDir ++ "/" ++ "PackagePath.txt") =
        some (GetFirstPackagePath env (GenerateMapPathsFile env st ⟨[], []⟩ "") P.Name) ∧
      ∀ q : String, q ≠ env.ProjectContentDir ++ "/" ++ "MapPaths.txt" →
        q ≠ env.ProjectContentDir ++ "/" ++ "PackagePath.txt" →
        LoadFileToString s.Files q = LoadFileToString st.Files q := by
  have hA := GetAssetsPathFromPackage_empty env st P.Name hempty
  have hM : Main env st P = some (GeneratePackagePathFile env
      (GenerateMapPathsFile env st ⟨[], []⟩ "") P.Name, 0) := by
    unfold Main
    simp only [hA]
    exact ((Dispatch_full_without_props env st P ⟨[], []⟩ hmove hmaps) rfl)
  have hT : GenerateMapPathsFile.MapPathData env.SearchCase ⟨[], []⟩ "" = "" := rfl
  obtain ⟨w1, _, h1⟩ := SaveStringTextToFile_spec env st env.ProjectContentDir "MapPaths.txt" ""
  obtain ⟨f1, l1⟩ := h1 (hdir _)
  have eG : GenerateMapPathsFile env st ⟨[], []⟩ "" =
      (SaveStringTextToFile env st env.ProjectContentDir "MapPaths.txt" "" true).1 := by
    unfold GenerateMapPathsFile
    simp only [hT]
  obtain ⟨w2, _, h2⟩ := SaveStringTextToFile_spec env (GenerateMapPathsFile env st ⟨[], []⟩ "")
    env.ProjectContentDir "PackagePath.txt"
    (GetFirstPackagePath env (GenerateMapPathsFile env st ⟨[], []⟩ "") P.Name)
  obtain ⟨f2, l2⟩ := h2 (hdir _)
  refine ⟨_, hM, ?_, ?_, ?_, ?_, ?_⟩
  · show (SaveStringTextToFile env (GenerateMapPathsFile env st ⟨[], []⟩ "")
      env.ProjectContentDir "PackagePath.txt" _ true).1.World = _
    rw [w2, eG, w1]
  · show (SaveStringTextToFile env (GenerateMapPathsFile env st ⟨[], []⟩ "")
      env.ProjectContentDir "PackagePath.txt" _ true).1.Log = _
    rw [l2, eG, l1, List.append_assoc]
    rfl
  · show LoadFileToString (SaveStringTextToFile env (GenerateMapPathsFile env st ⟨[], []⟩ "")
      env.ProjectContentDir "PackagePath.txt" _ true).1.Files _ = _
    rw [f2, LoadFileToString_WriteFile_ne _ _ _ _ (path_files_differ _).symm, eG, f1,
      LoadFileToString_WriteFile]
  · show LoadFileToString (SaveStringTextToFile env (GenerateMapPathsFile env st ⟨[], []⟩ "")
      env.ProjectContentDir "PackagePath.txt" _ true).1.Files _ = _
    rw [f2, LoadFileToString_WriteFile]
  · intro q hq1 hq2
    show LoadFileToString (SaveStringTextToFile env (GenerateMapPathsFile env st ⟨[], []⟩ "")
      env.ProjectContentDir "PackagePath.txt" _ true).1.Files _ = _
    rw [f2, LoadFileToString_WriteFile_ne _ _ _ _ hq2, eG, f1,
      LoadFileToString_WriteFile_ne _ _ _ _ hq1]

/-- C9 at a concrete input: no manifest is found and the disk is empty; `Main` returns
0 and both path files hold the empty text. -/
theorem C9_full_prepare_empty_manifest_witness :
    LoadFileToString Example.Start.Files
      (GetFirstPackagePath (Example.Engine ESearchCase.IgnoreCase []) Example.Start "Pkg") = none ∧
    (Main (Example.Engine ESearchCase.IgnoreCase []) Example.Start ⟨"Pkg", false, false⟩).map
        (fun r => (r.2, LoadFileToString r.1.Files ("/Content/" ++ "/" ++ "MapPaths.txt"),
          LoadFileToString r.1.Files ("/Content/" ++ "/" ++ "PackagePath.txt"))) =
      some (0, some "", some "") := by
  refine ⟨rfl, ?_⟩
  obtain ⟨s, h1, _, _, h2, h3, _⟩ :=
    C9_full_prepare_empty_manifest (Example.Engine ESearchCase.IgnoreCase []) Example.Start
      ⟨"Pkg", false, false⟩ rfl rfl (Or.inl rfl) (fun _ => rfl)
  rw [h1]
  exact congrArg some (Prod.ext rfl (Prod.ext h2 h3))

/-! ## C10: where the props scene is persisted -/

/-- C10: the code breaks the claim.  For every engine, state, package name and
manifest with at least one prop, whenever the full prepare returns (the base scene
is found) the package path `SaveWorld` built for the props scene, under which the
scene is registered, is `PropsMap/PropsMap`: `Main` hands the map name `PropsMap`,
not a path under `/Game/<PackageName>/Maps`, to `PreparePropsForCooking` as
destination.  It is not `/Game/<PackageName>/Maps/PropsMap`. -/
theorem C10_props_scene_package_path (env : Env) (st : State) (PackageName : String)
    (maps : List FMapData) (prop : String) (props : List String) :
    (Main.Dispatch env st ⟨PackageName, false, false⟩ ⟨maps, prop :: props⟩).map
        (fun r => r.1.World.RegistryPath) =
      (LoadWorld env st).2.map (fun _ => SaveWorld.PackagePath "PropsMap" "PropsMap") ∧
    SaveWorld.PackagePath "PropsMap" "PropsMap" = "PropsMap/PropsMap" ∧
    SaveWorld.PackagePath "PropsMap" "PropsMap" ≠ "/Game/" ++ PackageName ++ "/Maps/" ++ "PropsMap" ∧
    (Main.Dispatch (Example.Engine ESearchCase.IgnoreCase []) Example.Start
        ⟨"Pkg", false, false⟩ ⟨[], ["/Game/Pkg/Static/Props/Chair"]⟩).map
      (fun r => (r.1.World.RegistryPath, FileExists r.1.Files "PropsMap/PropsMap.umap",
        FileExists r.1.Files "/Game/Pkg/Maps/PropsMap.umap")) =
      some ("PropsMap/PropsMap", true, false) := by
  refine ⟨?_, rfl, ?_, by decide⟩
  · have e := ((Dispatch_full_with_props env st ⟨PackageName, false, false⟩ ⟨maps, prop :: props⟩
      rfl rfl) (List.cons_ne_nil _ _))
    rw [e]
    obtain ⟨hs, hr⟩ := PreparePropsForCooking_spec env st PackageName (prop :: props) "PropsMap"
    cases hq : PreparePropsForCooking env st PackageName (prop :: props) "PropsMap" with
    | none =>
      rw [hq] at hs
      have : (LoadWorld env st).2 = none := by
        cases h : (LoadWorld env st).2 with
        | none => rfl
        | some w => rw [h] at hs; simp at hs
      rw [this]; rfl
    | some s =>
      rw [hq] at hs
      have hr2 := (hr s hq).2
      obtain ⟨w, hw⟩ : ∃ w, (LoadWorld env st).2 = some w := by
        cases h : (LoadWorld env st).2 with
        | none => rw [h] at hs; simp at hs
        | some w => exact ⟨w, rfl⟩
      rw [hw]
      simp only [Option.map_some', Option.some.injEq]
      rw [(GeneratePackagePathFile_spec env _ _).1, (GenerateMapPathsFile_spec env _ _ _).1, hr2]
      rfl
  · intro h
    have h2 := congrArg String.data h
    simp only [String.data_append] at h2
    revert h2
    simp [SaveWorld.PackagePath]

end Carla
